import Mathlib

/-!
# Verification development for the `ai_orchestrator` execution engine

A shallow embedding, in Lean 4, of the parts of the `ai_orchestrator`
repository that the verified properties talk about:

* `execution/error_detector.py`  — error parsing and deduplication,
* `execution/fix_strategies.py`  — the fix-strategy registry,
* `execution/test_executor.py`   — the pytest summary parser,
* `execution/project_types.py`   — project-type detection,
* `execution/project_runner.py`  — command execution outcomes,
* `execution/verification_loop.py` — the run→test→fix loop.

Conventions of the embedding:

* Python machine behaviour is modelled over `Nat`/`Int`/`Rat` (32-bit
  arithmetic in MD5 is explicit `% 2 ^ 32`); Python `float` confidence
  values in `[0, 1]` are modelled as exact rationals (all confidences in
  the source are short decimal literals, whose comparisons coincide with
  the rational ones).
* External effects (spawning processes, reading the real filesystem, the
  AI "auto-fixer" collaborator) are modelled as oracle inputs: a run of
  the verification loop is parameterised by the per-cycle answers of
  those collaborators.  Everything downstream of the oracles is
  transliterated from the Python source.
* Python dictionaries and sets that the loop owns are modelled as
  association lists / lists without duplicates, so that whole loop runs
  are computable by `decide`.
-/

namespace AIOrch

/-! ## Generic string/list helpers (Python built-ins used by the source) -/

/-- `needle.isPrefixOf`-based substring test: Python's `needle in hay`. -/
def listContainsSub (hay needle : List Char) : Bool :=
  match hay with
  | [] => needle.isEmpty
  | _ :: t => needle.isPrefixOf hay || listContainsSub t needle

/-- Python `needle in hay` on strings. -/
def strContains (hay needle : String) : Bool :=
  listContainsSub hay.data needle.data

/-- ASCII lower-casing, Python `str.lower()` (the source only ever
lower-cases ASCII manifest/requirements text). -/
def strLower (s : String) : String :=
  String.mk (s.data.map Char.toLower)

/-- Python `str.strip()` (whitespace trimming). -/
def strip (s : String) : String := s.trim

/-- Python `"|".join l` (and the general `sep.join l`). -/
def joinSep (sep : String) : List String → String
  | [] => ""
  | [x] => x
  | x :: y :: t => x ++ sep ++ joinSep sep (y :: t)

/-- Python `l[-n:]`: the last `n` elements of a list. -/
def lastN (n : Nat) (l : List α) : List α :=
  l.drop (l.length - n)

/-- Decimal value of a digit run. -/
def natOfDigits (ds : List Char) : Nat :=
  ds.foldl (fun acc c => acc * 10 + (c.toNat - '0'.toNat)) 0

/-- Insert `x` before the first element `y` with `le x y`; keeps a
`le`-sorted list sorted and never reorders `le`-equivalent elements. -/
def insertSorted (le : α → α → Bool) (x : α) : List α → List α
  | [] => [x]
  | y :: l => if le x y then x :: y :: l else y :: insertSorted le x l

/-- Stable insertion sort.  Python's `sorted` is *the* stable sort for
the key order at hand, and any two stable sorts agree on every input, so
this models `sorted(...)` exactly (a structurally recursive definition
is used so that whole runs normalise inside the kernel). -/
def insertionSort (le : α → α → Bool) : List α → List α
  | [] => []
  | x :: l => insertSorted le x (insertionSort le l)

/-! ## MD5 (`hashlib.md5(-).hexdigest()`)

`VerificationLoop._get_error_hash` fingerprints an error as the first 16
hex characters of the MD5 of a key string.  MD5 is transliterated from
its reference description; all words are `Nat`s reduced mod `2 ^ 32`.
None of the theorems below depend on the internals of this function —
only on it being a deterministic function of the key — but it is kept
concrete so that whole loop runs evaluate. -/

namespace MD5

/-- 32-bit truncation. -/
def m32 (n : Nat) : Nat := n % (2 ^ 32)

/-- 32-bit left-rotation. -/
def rotl (x s : Nat) : Nat :=
  m32 ((x <<< s) % (2 ^ 32) + (x >>> (32 - s)))

/-- Per-round shift amounts. -/
def shifts : List Nat :=
  [7, 12, 17, 22, 7, 12, 17, 22, 7, 12, 17, 22, 7, 12, 17, 22,
   5,  9, 14, 20, 5,  9, 14, 20, 5,  9, 14, 20, 5,  9, 14, 20,
   4, 11, 16, 23, 4, 11, 16, 23, 4, 11, 16, 23, 4, 11, 16, 23,
   6, 10, 15, 21, 6, 10, 15, 21, 6, 10, 15, 21, 6, 10, 15, 21]

/-- The sine-derived additive constants. -/
def kTable : List Nat :=
  [0xd76aa478, 0xe8c7b756, 0x242070db, 0xc1bdceee,
   0xf57c0faf, 0x4787c62a, 0xa8304613, 0xfd469501,
   0x698098d8, 0x8b44f7af, 0xffff5bb1, 0x895cd7be,
   0x6b901122, 0xfd987193, 0xa679438e, 0x49b40821,
   0xf61e2562, 0xc040b340, 0x265e5a51, 0xe9b6c7aa,
   0xd62f105d, 0x02441453, 0xd8a1e681, 0xe7d3fbc8,
   0x21e1cde6, 0xc33707d6, 0xf4d50d87, 0x455a14ed,
   0xa9e3e905, 0xfcefa3f8, 0x676f02d9, 0x8d2a4c8a,
   0xfffa3942, 0x8771f681, 0x6d9d6122, 0xfde5380c,
   0xa4beea44, 0x4bdecfa9, 0xf6bb4b60, 0xbebfbc70,
   0x289b7ec6, 0xeaa127fa, 0xd4ef3085, 0x04881d05,
   0xd9d4d039, 0xe6db99e5, 0x1fa27cf8, 0xc4ac5665,
   0xf4292244, 0x432aff97, 0xab9423a7, 0xfc93a039,
   0x655b59c3, 0x8f0ccc92, 0xffeff47d, 0x85845dd1,
   0x6fa87e4f, 0xfe2ce6e0, 0xa3014314, 0x4e0811a1,
   0xf7537e82, 0xbd3af235, 0x2ad7d2bb, 0xeb86d391]

/-- UTF-8 encoding of one code point (`str.encode()`). -/
def utf8Bytes (c : Char) : List Nat :=
  let n := c.toNat
  if n < 0x80 then [n]
  else if n < 0x800 then
    [0xc0 + n / 64, 0x80 + n % 64]
  else if n < 0x10000 then
    [0xe0 + n / 4096, 0x80 + n / 64 % 64, 0x80 + n % 64]
  else
    [0xf0 + n / 262144, 0x80 + n / 4096 % 64, 0x80 + n / 64 % 64, 0x80 + n % 64]

/-- `key.encode()`: UTF-8 bytes of a string. -/
def strBytes (s : String) : List Nat :=
  s.data.flatMap utf8Bytes

/-- MD5 padding: append `0x80`, zero-fill to 56 mod 64, then the 8-byte
little-endian bit length. -/
def pad (msg : List Nat) : List Nat :=
  let bitLen := msg.length * 8
  let zeros := (64 + 56 - (msg.length + 1) % 64) % 64
  msg ++ [0x80] ++ List.replicate zeros 0 ++
    (List.range 8).map (fun i => bitLen / (2 ^ (8 * i)) % 256)

/-- Little-endian 32-bit words of one 64-byte block. -/
def blockWords (block : List Nat) : List Nat :=
  (List.range 16).map (fun i =>
    block.getD (4 * i) 0 + block.getD (4 * i + 1) 0 * 256 +
    block.getD (4 * i + 2) 0 * 65536 + block.getD (4 * i + 3) 0 * 16777216)

/-- The nonlinear mixing function and message index for step `i`. -/
def mix (i b c d : Nat) : Nat × Nat :=
  if i < 16 then (Nat.lor (Nat.land b c) (Nat.land (2 ^ 32 - 1 - b) d), i)
  else if i < 32 then (Nat.lor (Nat.land d b) (Nat.land (2 ^ 32 - 1 - d) c), (5 * i + 1) % 16)
  else if i < 48 then (Nat.xor b (Nat.xor c d), (3 * i + 5) % 16)
  else (Nat.xor c (Nat.lor b (2 ^ 32 - 1 - d)), (7 * i) % 16)

/-- One of the 64 steps of a block. -/
def step (ws : List Nat) (st : Nat × Nat × Nat × Nat) (i : Nat) : Nat × Nat × Nat × Nat :=
  let (a, b, c, d) := st
  let (f, g) := mix i b c d
  let f' := m32 (f + a + kTable.getD i 0 + ws.getD g 0)
  (d, m32 (b + rotl f' (shifts.getD i 0)), b, c)

/-- Process one 64-byte block. -/
def processBlock (st : Nat × Nat × Nat × Nat) (block : List Nat) : Nat × Nat × Nat × Nat :=
  let ws := blockWords block
  let (a, b, c, d) := (List.range 64).foldl (step ws) st
  let (a0, b0, c0, d0) := st
  (m32 (a0 + a), m32 (b0 + b), m32 (c0 + c), m32 (d0 + d))

/-- Split a list into 64-byte blocks; the fuel argument (at least the
number of blocks, e.g. the list length) keeps the recursion structural. -/
def blocksGo : Nat → List Nat → List (List Nat)
  | 0, _ => []
  | _, [] => []
  | fuel + 1, x :: l => (x :: l).take 64 :: blocksGo fuel ((x :: l).drop 64)

/-- Split a padded message into 64-byte blocks. -/
def blocks (l : List Nat) : List (List Nat) :=
  blocksGo l.length l

/-- Little-endian bytes of one 32-bit word. -/
def wordBytes (w : Nat) : List Nat :=
  [w % 256, w / 256 % 256, w / 65536 % 256, w / 16777216 % 256]

/-- Lower-case hex digit. -/
def hexDigit (n : Nat) : Char :=
  if n < 10 then Char.ofNat ('0'.toNat + n) else Char.ofNat ('a'.toNat + n - 10)

/-- The two hex characters of a byte. -/
def byteHex (b : Nat) : List Char :=
  [hexDigit (b / 16), hexDigit (b % 16)]

/-- `hashlib.md5(msg).hexdigest()`. -/
def hexdigest (s : String) : String :=
  let init : Nat × Nat × Nat × Nat := (0x67452301, 0xefcdab89, 0x98badcfe, 0x10325476)
  let (a, b, c, d) := (blocks (pad (strBytes s))).foldl processBlock init
  String.mk (((wordBytes a ++ wordBytes b ++ wordBytes c ++ wordBytes d).flatMap byteHex))

end MD5

/-! ## `execution/error_detector.py` -/

/-- `ErrorCategory` from `error_detector.py`. -/
inductive ErrorCategory where
  | syntaxError
  | runtime
  | dependency
  | importError
  | typeError
  | permission
  | network
  | fileNotFound
  | configuration
  | timeout
  | memory
  | portInUse
  | testFailure
  | swiftCompilation
  | codeSigning
  | simulator
  | xcodeBuild
  | swiftuiPreview
  | unknown
deriving DecidableEq, Repr

/-- `DetectedError` from `error_detector.py`. -/
structure DetectedError where
  category : ErrorCategory
  message : String
  lineNumber : Option Nat := none
  filePath : Option String := none
  stackTrace : Option String := none
  rawOutput : Option String := none
  severity : String := "error"
  suggestedFixes : List String := []
  contextLines : List String := []
deriving DecidableEq, Repr

/-- The `ErrorDetector.FIX_SUGGESTIONS` table (`FIX_SUGGESTIONS.get(category, [])`). -/
def fixSuggestions : ErrorCategory → List String
  | .syntaxError =>
      ["Check the indicated line for syntax errors",
       "Verify proper indentation and bracket matching",
       "Look for missing colons, commas, or parentheses"]
  | .dependency =>
      ["Run 'npm install' or 'pip install -r requirements.txt'",
       "Check if the package name is correct",
       "Try clearing node_modules and reinstalling",
       "Check for version conflicts in dependencies"]
  | .importError =>
      ["Verify the module is installed",
       "Check the import path is correct",
       "Ensure the file exists at the expected location"]
  | .typeError =>
      ["Check the types of variables being used",
       "Verify function arguments match expected types",
       "Look for undefined or null values"]
  | .permission =>
      ["Check file/directory permissions",
       "Run with appropriate privileges if needed",
       "Ensure the user has write access"]
  | .network =>
      ["Check if the server/service is running",
       "Verify the URL and port are correct",
       "Check network connectivity"]
  | .fileNotFound =>
      ["Verify the file path is correct",
       "Check if the file exists",
       "Ensure the working directory is correct"]
  | .configuration =>
      ["Check if .env file exists with required variables",
       "Verify all configuration files are present",
       "Review configuration documentation"]
  | .portInUse =>
      ["Kill the process using the port",
       "Use a different port",
       "Check for existing instances of the application"]
  | .memory =>
      ["Increase memory allocation",
       "Optimize code to use less memory",
       "Check for memory leaks"]
  | .testFailure =>
      ["Review the failing test assertions",
       "Check if test fixtures are set up correctly",
       "Verify expected vs actual values"]
  | .swiftCompilation =>
      ["Check the Swift syntax at the indicated file and line",
       "Verify all imports are correctly declared",
       "Check that type names and property names are spelled correctly",
       "Ensure proper use of optionals and unwrapping",
       "Run 'swift package resolve' to update dependencies"]
  | .codeSigning =>
      ["For simulator builds, add CODE_SIGN_IDENTITY=- CODE_SIGNING_REQUIRED=NO to build command",
       "Open Xcode and set signing to 'Automatically manage signing'",
       "Add a development team in Xcode project settings",
       "For CI/CD, ensure certificates are installed in the keychain"]
  | .simulator =>
      ["List available simulators: xcrun simctl list devices",
       "Boot a different simulator version",
       "Reset simulator: xcrun simctl erase <device-udid>",
       "Restart Simulator.app: killall Simulator && open -a Simulator",
       "Update Xcode to get newer simulator runtimes"]
  | .xcodeBuild =>
      ["Clean build folder: xcodebuild clean",
       "Delete DerivedData: rm -rf ~/Library/Developer/Xcode/DerivedData",
       "Verify scheme exists: xcodebuild -list",
       "Check if project file is corrupted",
       "Ensure Xcode command line tools are installed: xcode-select --install"]
  | .swiftuiPreview =>
      ["Restart Xcode to refresh previews",
       "Check that PreviewProvider conforms correctly",
       "Simplify the preview code to identify issues",
       "Clean build folder and rebuild",
       "Ensure the preview device is available in Xcode"]
  | _ => []

/-- `re.sub(r'\d+', 'N', -)` on the character list: every maximal run of
decimal digits becomes a single `N`.  The boolean flag records whether the
previous character was a digit (i.e. whether we are inside a run). -/
def subDigits : Bool → List Char → List Char
  | _, [] => []
  | inRun, c :: cs =>
    if c.isDigit then
      if inRun then subDigits true cs else 'N' :: subDigits true cs
    else
      c :: subDigits false cs

/-- The normalised form `_deduplicate_errors` compares:
`re.sub(r'\d+', 'N', error.message.strip())`. -/
def normalizeMsg (s : String) : String :=
  String.mk (subDigits false (strip s).data)

/-- `ErrorDetector._deduplicate_errors`: keep an error only when its
normalised message has not been seen yet (`seen` is the Python `set`). -/
def dedupGo (seen : List String) : List DetectedError → List DetectedError
  | [] => []
  | e :: rest =>
    let n := normalizeMsg e.message
    if n ∈ seen then dedupGo seen rest
    else e :: dedupGo (n :: seen) rest

/-- `ErrorDetector._deduplicate_errors`. -/
def deduplicateErrors (errors : List DetectedError) : List DetectedError :=
  dedupGo [] errors

/-- The context slice `lines[max(0, i - m) : min(len(lines), i + m + 1)]`. -/
def contextWindow (lines : List String) (i m : Nat) : List String :=
  (lines.drop (i - m)).take (min lines.length (i + m + 1) - (i - m))

/-- The undeduplicated error list built by `ErrorDetector.parse_error_logs`
before its final `_deduplicate_errors` call.  The three regex-based helpers
of the detector — `_categorize_line`, `_extract_location` and
`_extract_stack_trace` — are taken as oracle parameters: every theorem
below is proved for all of them, so it holds in particular for the
pattern tables of the source. -/
def rawErrors (categorize : String → ErrorCategory)
    (extractLoc : String → List String → Nat → Option String × Option Nat)
    (extractST : List String → Nat → Option String)
    (maxContextLines : Nat) (output stderr : String) : List DetectedError :=
  let combined := output ++ "\n" ++ stderr
  let lines := combined.splitOn "\n"
  (List.range lines.length).filterMap (fun i =>
    let line := lines.getD i ""
    let cat := categorize line
    if cat = .unknown then none
    else
      let loc := extractLoc line lines i
      some { category := cat
             message := strip line
             lineNumber := loc.2
             filePath := loc.1
             stackTrace := extractST lines i
             rawOutput := some combined
             severity := "error"
             suggestedFixes := fixSuggestions cat
             contextLines := contextWindow lines i maxContextLines })

/-- `ErrorDetector.parse_error_logs`. -/
def parseErrorLogs (categorize : String → ErrorCategory)
    (extractLoc : String → List String → Nat → Option String × Option Nat)
    (extractST : List String → Nat → Option String)
    (maxContextLines : Nat) (output stderr : String) : List DetectedError :=
  deduplicateErrors (rawErrors categorize extractLoc extractST maxContextLines output stderr)

/-- The specification's phrasing of deduplication: keep only the first
occurrence per normalised message (later occurrences filtered out).  Used
to state that `_deduplicate_errors` refines the spec sentence. -/
def keepFirstByNorm : List DetectedError → List DetectedError
  | [] => []
  | e :: rest =>
    e :: keepFirstByNorm (rest.filter (fun e2 => normalizeMsg e2.message ≠ normalizeMsg e.message))
  termination_by l => l.length
  decreasing_by
    simpa using Nat.lt_succ_of_le (List.length_filter_le _ _)

/-! ## `execution/fix_strategies.py` -/

/-- `FixType` from `fix_strategies.py`. -/
inductive FixType where
  | dependency
  | importFix
  | syntaxFix
  | configuration
  | port
  | permission
  | fileCreation
  | codeModification
  | command
deriving DecidableEq, Repr

/-- `FixStrategy` from `fix_strategies.py`.  Confidence is a `[0,1]` score;
the Python `float` literals of the registry are short decimals, modelled
exactly as rationals.  The source's `apply_func` callable is `none` for
every registered strategy and is dropped here. -/
structure FixStrategy where
  name : String
  description : String
  fixType : FixType
  errorCategories : List ErrorCategory
  confidence : ℚ
  command : Option String := none
  fileChanges : List (String × String) := []
  requiresRestart : Bool := false
  isSafe : Bool := true
deriving DecidableEq, Repr

/-- `FixResult` from `fix_strategies.py`.  The `strategy` field is
annotated `FixStrategy` in the source but `VerificationLoop._attempt_fix`
passes `None` into it, so it is an `Option` here; `rollback_info` is an
association list. -/
structure FixResult where
  success : Bool
  strategy : Option FixStrategy
  message : String
  changesMade : List String := []
  rollbackInfo : List (String × String) := []
deriving DecidableEq, Repr

/-- The strategies registered by
`FixStrategyRegistry._register_default_strategies`, in registration
order. -/
def defaultStrategies : List FixStrategy :=
  [{ name := "npm_install", description := "Install missing npm packages",
     fixType := .dependency, errorCategories := [.dependency, .importError],
     confidence := 0.9, command := some "npm install", requiresRestart := true },
   { name := "npm_clean_install", description := "Clean install npm packages",
     fixType := .dependency, errorCategories := [.dependency],
     confidence := 0.8, command := some "rm -rf node_modules package-lock.json && npm install",
     requiresRestart := true },
   { name := "pip_install_requirements", description := "Install Python requirements",
     fixType := .dependency, errorCategories := [.dependency, .importError],
     confidence := 0.9, command := some "pip install -r requirements.txt", requiresRestart := true },
   { name := "pip_install_module", description := "Install specific Python module",
     fixType := .dependency, errorCategories := [.importError],
     confidence := 0.85, requiresRestart := true },
   { name := "npm_install_module", description := "Install specific npm package",
     fixType := .dependency, errorCategories := [.importError],
     confidence := 0.85, requiresRestart := true },
   { name := "kill_port_process", description := "Kill process using the port",
     fixType := .port, errorCategories := [.portInUse],
     confidence := 0.9, requiresRestart := true },
   { name := "change_port", description := "Change application port",
     fixType := .port, errorCategories := [.portInUse],
     confidence := 0.7, requiresRestart := true },
   { name := "fix_file_permissions", description := "Fix file permissions",
     fixType := .permission, errorCategories := [.permission], confidence := 0.8 },
   { name := "fix_directory_permissions", description := "Fix directory permissions",
     fixType := .permission, errorCategories := [.permission], confidence := 0.8 },
   { name := "create_env_file", description := "Create .env file from template",
     fixType := .configuration, errorCategories := [.configuration, .fileNotFound],
     confidence := 0.9 },
   { name := "fix_config_syntax", description := "Fix configuration file syntax",
     fixType := .configuration, errorCategories := [.configuration, .syntaxError],
     confidence := 0.6 },
   { name := "fix_relative_import", description := "Fix relative import path",
     fixType := .importFix, errorCategories := [.importError], confidence := 0.7 },
   { name := "add_missing_import", description := "Add missing import statement",
     fixType := .importFix, errorCategories := [.importError], confidence := 0.75 },
   { name := "fix_indentation", description := "Fix Python indentation",
     fixType := .syntaxFix, errorCategories := [.syntaxError], confidence := 0.7 },
   { name := "fix_bracket_mismatch", description := "Fix bracket/parenthesis mismatch",
     fixType := .syntaxFix, errorCategories := [.syntaxError], confidence := 0.6 },
   { name := "fix_missing_semicolon", description := "Add missing semicolons",
     fixType := .syntaxFix, errorCategories := [.syntaxError], confidence := 0.8 }]

/-- `FixStrategyRegistry.get_strategies_for_error`: filter the registered
strategies to those covering the error's category with confidence at
least `min_confidence`, then `sorted(-, key=confidence, reverse=True)`
(a stable descending sort, modelled by the stable `insertionSort` on `≥`). -/
def getStrategiesForError (error : DetectedError) (minConfidence : ℚ) : List FixStrategy :=
  insertionSort (fun a b => decide (b.confidence ≤ a.confidence))
    (defaultStrategies.filter
      (fun s => decide (error.category ∈ s.errorCategories) &&
                decide (minConfidence ≤ s.confidence)))

/-! ## `execution/test_executor.py` (the pytest summary parser) -/

/-- `TestFramework` from `test_executor.py`. -/
inductive TestFramework where
  | pytest
  | unittest
  | jest
  | mocha
  | vitest
  | django
  | unknown
deriving DecidableEq, Repr

/-- `TestResult` from `test_executor.py`.  The per-suite breakdown (the
`suites` field) is filled by a separate per-test-line scan that feeds no
count below and is omitted; `duration` is wall-clock and omitted. -/
structure TestResultT where
  framework : TestFramework
  success : Bool
  totalTests : Nat := 0
  passed : Nat := 0
  failed : Nat := 0
  skipped : Nat := 0
  errors : Nat := 0
  rawOutput : String := ""
  command : String := ""
  exitCode : Int := 0
deriving DecidableEq, Repr

/-- Python's `\s` on ASCII text. -/
def isPyWs (c : Char) : Bool :=
  c = ' ' || c = '\t' || c = '\n' || c = '\r' || c = '\x0b' || c = '\x0c'

/-- The search performed by each capture group of the pytest summary
regex `(\d+)\s+passed(?:.*?(\d+)\s+failed)?(?:.*?(\d+)\s+skipped)?(?:.*?(\d+)\s+error)?`:
the leftmost digit run followed by whitespace and the keyword; returns
the run's value and the remaining text after the keyword. -/
def findCount (kw : List Char) : List Char → Option (Nat × List Char)
  | [] => none
  | c :: cs =>
    if c.isDigit then
      let ds := List.takeWhile Char.isDigit (c :: cs)
      let afterDigits := List.dropWhile Char.isDigit (c :: cs)
      let ws := List.takeWhile isPyWs afterDigits
      let afterWs := List.dropWhile isPyWs afterDigits
      if !ws.isEmpty && kw.isPrefixOf afterWs then
        some (natOfDigits ds, afterWs.drop kw.length)
      else findCount kw cs
    else findCount kw cs

/-- `TestExecutor._parse_pytest_output`: match the summary regex (group 1
mandatory, groups 2–4 optional and searched left-to-right after the
previous group's end), then
`total = passed + failed + skipped + errors` and
`success = failed == 0 and errors == 0`.  No summary match leaves the
freshly initialised result (`success = False`, all counts `0`). -/
def parsePytestOutput (output : String) : TestResultT :=
  let base : TestResultT := { framework := .pytest, success := false }
  match findCount "passed".data output.data with
  | none => base
  | some (p, r1) =>
    let fr := match findCount "failed".data r1 with
              | some x => x
              | none => (0, r1)
    let sr := match findCount "skipped".data fr.2 with
              | some x => x
              | none => (0, fr.2)
    let er := match findCount "error".data sr.2 with
              | some x => x
              | none => (0, sr.2)
    { base with
      passed := p, failed := fr.1, skipped := sr.1, errors := er.1,
      totalTests := p + fr.1 + sr.1 + er.1,
      success := fr.1 == 0 && er.1 == 0 }

/-! ## `execution/project_runner.py` (`_execute_command`) -/

/-- `ExecutionStatus` from `project_runner.py`. -/
inductive ExecutionStatus where
  | pending
  | settingUp
  | running
  | success
  | failed
  | timeout
  | cancelled
deriving DecidableEq, Repr

/-- The output accumulated by `OutputCapture` at the moment
`_execute_command` stops waiting (the capture threads are external I/O,
so their content is an oracle input). -/
structure CapturedOutput where
  stdout : String := ""
  stderr : String := ""
deriving DecidableEq, Repr

/-- What the operating system did with the spawned command — the oracle
input of `_execute_command`:

* `exited code` — `Popen.wait` returned `code` (negative codes are
  processes killed by a signal, as CPython reports them);
* `timedOut killpgFails` — `wait` raised `TimeoutExpired`;
  `killpgFails` tells whether the subsequent `os.killpg` raised (in which
  case the source falls back to `Popen.kill` on the direct child);
* `spawnError msg` — spawning itself raised (interpreter missing,
  permission to spawn denied, …), caught by the final `except`. -/
inductive ProcOutcome where
  | exited (code : Int)
  | timedOut (killpgFails : Bool)
  | spawnError (msg : String)
deriving DecidableEq, Repr

/-- Process-termination actions observable at the OS boundary.  The last
two are never emitted by the source's timeout path; they are the actions
the specification's "grace window, then force-kill" sequence would
require. -/
inductive TermAction where
  | sigtermGroup
  | killDirectChild
  | graceWait
  | sigkillGroup
deriving DecidableEq, Repr

/-- The dictionary `_execute_command` returns (`duration` is wall-clock
and omitted). -/
structure ExecOutcome where
  stdout : String
  stderr : String
  exitCode : Int
  status : ExecutionStatus
deriving DecidableEq, Repr

/-- `ProjectRunner._execute_command`, together with the trace of
termination actions it performs.  On timeout it sends one `SIGTERM` to
the process group (`os.killpg(..., SIGTERM)`) and returns; only if that
call raises does it `kill()` the direct child. -/
def executeCommand (timeoutSecs : Nat) (capture : CapturedOutput) (outcome : ProcOutcome) :
    ExecOutcome × List TermAction :=
  match outcome with
  | .exited code =>
      ({ stdout := capture.stdout, stderr := capture.stderr, exitCode := code,
         status := if code = 0 then .success else .failed }, [])
  | .timedOut killpgFails =>
      ({ stdout := capture.stdout,
         stderr := capture.stderr ++ "\nProcess timed out after " ++ toString timeoutSecs ++ "s",
         exitCode := -1, status := .timeout },
       if killpgFails then [.killDirectChild] else [.sigtermGroup])
  | .spawnError msg =>
      ({ stdout := capture.stdout,
         stderr := capture.stderr ++ "\nExecution error: " ++ msg,
         exitCode := -1, status := .failed }, [])

/-! ## `execution/project_types.py` (detection) -/

/-- The content of a `package.json` as the detectors consume it: the key
sets of `dependencies` and `devDependencies`. -/
structure PackageJson where
  dependencies : List String := []
  devDependencies : List String := []

/-- A project directory as observed by the handlers' `detect` methods.
Filesystem reads are oracle fields; `none` in a read models the
exception the source catches (missing file, decode error, …), and
`readJsonPkg` returning `none` models `_read_json`'s
`except (FileNotFoundError, JSONDecodeError): return None` (a `{}`
manifest behaves identically to `none` in every detector, since no key
is in it). -/
structure ProjectDir where
  fileExists : String → Bool
  readJsonPkg : String → Option PackageJson
  readText : String → Option String
  hasXcodeproj : Bool := false
  hasXcworkspace : Bool := false
  swiftFiles : List (Option String) := []

/-- `NodeJSProject.detect`. -/
def nodejsDetect (d : ProjectDir) : Bool :=
  d.fileExists "package.json"

/-- `ReactProject.detect`. -/
def reactDetect (d : ProjectDir) : Bool :=
  if !d.fileExists "package.json" then false
  else
    match d.readJsonPkg "package.json" with
    | none => false
    | some pkg =>
      let allDeps := pkg.dependencies ++ pkg.devDependencies
      allDeps.contains "react" && !allDeps.contains "next"

/-- `NextJSProject.detect`. -/
def nextjsDetect (d : ProjectDir) : Bool :=
  if !d.fileExists "package.json" then false
  else
    match d.readJsonPkg "package.json" with
    | none => false
    | some pkg => pkg.dependencies.contains "next"

/-- `PythonProject.detect`. -/
def pythonDetect (d : ProjectDir) : Bool :=
  ["requirements.txt", "setup.py", "setup.cfg", "pyproject.toml",
   "Pipfile", "main.py", "app.py"].any d.fileExists

/-- `FlaskProject.detect`. -/
def flaskDetect (d : ProjectDir) : Bool :=
  (if d.fileExists "requirements.txt" then
     match d.readText "requirements.txt" with
     | some content => strContains (strLower content) "flask"
     | none => false
   else false) ||
  ["app.py", "application.py", "wsgi.py"].any (fun entry =>
     if d.fileExists entry then
       match d.readText entry with
       | some content =>
           strContains content "from flask import" || strContains (strLower content) "import flask"
       | none => false
     else false)

/-- `DjangoProject.detect`. -/
def djangoDetect (d : ProjectDir) : Bool :=
  (if d.fileExists "manage.py" then
     match d.readText "manage.py" with
     | some content => strContains (strLower content) "django"
     | none => false
   else false) ||
  (if d.fileExists "requirements.txt" then
     match d.readText "requirements.txt" with
     | some content => strContains (strLower content) "django"
     | none => false
   else false)

/-- `iOSProject.detect`. -/
def iosDetect (d : ProjectDir) : Bool :=
  d.hasXcodeproj || d.hasXcworkspace ||
  (if d.fileExists "Package.swift" then
     match d.readText "Package.swift" with
     | some content =>
         strContains content ".iOS" || strContains content "iOS" || strContains content "SwiftUI"
     | none => false
   else false) ||
  d.swiftFiles.any (fun f =>
     match f with
     | some content => strContains content "import SwiftUI" || strContains content "import UIKit"
     | none => false)

/-- `GenericProject.detect`: always matches. -/
def genericDetect (_ : ProjectDir) : Bool := true

/-- A project handler as `detect_project_type` consumes it (name,
priority and the `detect` capability; `get_config` is not needed by any
verified property). -/
structure Handler where
  name : String
  priority : Nat
  detect : ProjectDir → Bool

def nextjsHandler : Handler := ⟨"nextjs", 25, nextjsDetect⟩
def reactHandler : Handler := ⟨"react", 20, reactDetect⟩
def djangoHandler : Handler := ⟨"django", 15, djangoDetect⟩
def flaskHandler : Handler := ⟨"flask", 15, flaskDetect⟩
def iosHandler : Handler := ⟨"ios", 18, iosDetect⟩
def nodejsHandler : Handler := ⟨"nodejs", 10, nodejsDetect⟩
def pythonHandler : Handler := ⟨"python", 5, pythonDetect⟩
def genericHandler : Handler := ⟨"generic", 0, genericDetect⟩

/-- `PROJECT_HANDLERS`: the instantiation-order list sorted by priority,
descending (Python's stable `sorted(..., reverse=True)`). -/
def projectHandlers : List Handler :=
  insertionSort (fun a b => decide (b.priority ≤ a.priority))
    [nextjsHandler, reactHandler, djangoHandler, flaskHandler, iosHandler,
     nodejsHandler, pythonHandler, genericHandler]

/-- `detect_project_type`: first handler whose `detect` is true, with the
generic fallback. -/
def detectProjectType (d : ProjectDir) : Handler :=
  match projectHandlers.find? (fun h => h.detect d) with
  | some h => h
  | none => genericHandler

/-! ## `execution/verification_loop.py`

The loop's collaborators spawn processes and call an AI service, so a run
is parameterised by a per-cycle environment `CycleEnv` carrying their
answers; everything after those call boundaries is transliterated from
the source.  Not modelled: the `cancel()` flag and the blanket
`except Exception` of `run_development_cycle` (no exception can arise in
the embedded fragment), and wall-clock fields (`duration`, timestamps). -/

/-- `LoopStatus` from `verification_loop.py`. -/
inductive LoopStatus where
  | notStarted
  | running
  | success
  | failed
  | maxRetriesReached
  | stuckInLoop
  | needsHumanHelp
  | cancelled
deriving DecidableEq, Repr

/-- `ProgressTrend` from `verification_loop.py`. -/
inductive ProgressTrend where
  | improving
  | regressing
  | stalled
  | unknown
deriving DecidableEq, Repr

/-- Modelled from the spec: the `GeneratedFix` dataclass of
`execution/auto_fixer.py`, which `verification_loop.py` imports but which
is missing from `src/` — spec §3: "the error it targets, a fix-type tag,
a confidence in [0,1] from the code-generation collaborator, file-content
diffs to apply, shell commands to run, a rationale string, a
validation-passed flag".  Only `confidence` is inspected by the embedded
code. -/
structure GeneratedFix where
  error : DetectedError
  fixType : String := ""
  confidence : ℚ
  fileChanges : List (String × String) := []
  commands : List String := []
  rationale : String := ""
  validationPassed : Bool := false
deriving DecidableEq, Repr

/-- Modelled from the spec: the `FixAttempt` dataclass of
`execution/auto_fixer.py` (missing from `src/`) — spec §3: "fix attempts
made (each pairing an error, the fix tried, and its FixResult)".  The
source's wall-clock `timestamp` is omitted. -/
structure FixAttempt where
  error : DetectedError
  fix : GeneratedFix
  result : FixResult
deriving DecidableEq, Repr

/-- The fields of the runner's `ExecutionResult` that the loop consumes
(the runner spawns external processes; its answer is an oracle input). -/
structure ExecResultE where
  status : ExecutionStatus
  errors : List DetectedError
deriving DecidableEq, Repr

/-- The answer of `TestExecutor.run_tests` as the loop consumes it:
`errors` stands for the value of
`error_detector.parse_error_logs(test_result.raw_output,
test_result.error_output or "")` that `_run_single_cycle` computes on
test failure. -/
structure TestResultE where
  success : Bool
  errors : List DetectedError
deriving DecidableEq, Repr

/-- `CycleResult` from `verification_loop.py` (`duration` omitted). -/
structure CycleResult where
  cycleNumber : Nat
  executionResult : Option ExecResultE := none
  testResult : Option TestResultE := none
  errorsFound : List DetectedError := []
  fixesAttempted : List FixAttempt := []
  fixesSuccessful : Nat := 0
  fixesFailed : Nat := 0
  status : String := "pending"
deriving DecidableEq, Repr

/-- `LoopProgress` from `verification_loop.py`. -/
structure LoopProgress where
  totalCycles : Nat := 0
  totalErrorsFound : Nat := 0
  totalErrorsFixed : Nat := 0
  uniqueErrorsSeen : Nat := 0
  repeatedErrors : Nat := 0
  trend : ProgressTrend := .unknown
  errorCountHistory : List Nat := []
deriving DecidableEq, Repr

/-- The constructor parameters of `VerificationLoop` that the embedded
fragment reads. -/
structure LoopParams where
  maxCycles : Nat := 10
  maxSameErrorAttempts : Nat := 3
  runTests : Bool := true
  autoFix : Bool := true
  confidenceThreshold : ℚ := 0.7

/-- The `.value` string of an `ErrorCategory` (Python `Enum.value`). -/
def catValue : ErrorCategory → String
  | .syntaxError => "syntax"
  | .runtime => "runtime"
  | .dependency => "dependency"
  | .importError => "import"
  | .typeError => "type"
  | .permission => "permission"
  | .network => "network"
  | .fileNotFound => "file_not_found"
  | .configuration => "configuration"
  | .timeout => "timeout"
  | .memory => "memory"
  | .portInUse => "port_in_use"
  | .testFailure => "test_failure"
  | .swiftCompilation => "swift_compilation"
  | .codeSigning => "code_signing"
  | .simulator => "simulator"
  | .xcodeBuild => "xcode_build"
  | .swiftuiPreview => "swiftui_preview"
  | .unknown => "unknown"

/-- Python `s[:n]`. -/
def takeStr (n : Nat) (s : String) : String := String.mk (s.data.take n)

/-- `VerificationLoop._get_error_hash`:
`md5("|".join([category.value, file_path or "", str(line_number or 0),
message[:100] if message else ""])).hexdigest()[:16]`. -/
def getErrorHash (e : DetectedError) : String :=
  let key := joinSep "|"
    [catValue e.category,
     e.filePath.getD "",
     toString (e.lineNumber.getD 0),
     if e.message = "" then "" else takeStr 100 e.message]
  String.mk ((MD5.hexdigest key).data.take 16)

/-- Code-point lexicographic order on character lists. -/
def charsLe : List Char → List Char → Bool
  | [], _ => true
  | _ :: _, [] => false
  | a :: as, b :: bs =>
    if a.toNat < b.toNat then true
    else if b.toNat < a.toNat then false
    else charsLe as bs

/-- Code-point lexicographic order on strings: the order Python's
`sorted` uses on `str`. -/
def strLe (a b : String) : Bool := charsLe a.data b.data

/-- The sorted per-error hash list of a cycle (the list whose `"|"`-join
is `_get_cycle_error_signature`'s answer; Python `sorted` on strings is
the code-point lexicographic order `strLe`). -/
def sortedErrorHashes (c : CycleResult) : List String :=
  insertionSort strLe (c.errorsFound.map getErrorHash)

/-- `VerificationLoop._get_cycle_error_signature`. -/
def cycleErrorSignature (c : CycleResult) : String :=
  if c.errorsFound = [] then "" else joinSep "|" (sortedErrorHashes c)

/-- Python `l[-3:]` of the error-count history, shared by
`_calculate_trend` and `detect_infinite_loop`. -/
def recentWindow (history : List Nat) : List Nat := lastN 3 history

/-- `VerificationLoop._calculate_trend` (`recentWindow history` is the
`recent = history[-3:]` slice). -/
def calculateTrend (history : List Nat) : ProgressTrend :=
  if history.length < 2 then .unknown
  else if (recentWindow history).all (fun c => c == (recentWindow history).headD 0) then
    .stalled
  else if 2 ≤ (recentWindow history).length then
    if (recentWindow history).getLastD 0 < (recentWindow history).headD 0 then .improving
    else if (recentWindow history).headD 0 < (recentWindow history).getLastD 0 then .regressing
    else .stalled
  else .stalled

/-- `dict.get(k, 0)` on the `_error_hash_counts` association list. -/
def lookupCount (m : List (String × Nat)) (k : String) : Nat :=
  match m.find? (fun kv => kv.1 == k) with
  | some kv => kv.2
  | none => 0

/-- `dict[k] = v` on the `_error_hash_counts` association list. -/
def setCount (m : List (String × Nat)) (k : String) (v : Nat) : List (String × Nat) :=
  match m with
  | [] => [(k, v)]
  | kv :: rest => if kv.1 == k then (k, v) :: rest else kv :: setCount rest k v

/-- `set.add` on the `_seen_error_hashes` list-as-set. -/
def addSeen (seen : List String) (h : String) : List String :=
  if h ∈ seen then seen else seen ++ [h]

/-- `VerificationLoop._update_progress` (it reads, and does not write,
`_seen_error_hashes`). -/
def updateProgress (progress : LoopProgress) (seen : List String) (cycle : CycleResult) :
    LoopProgress :=
  let errorCount := cycle.errorsFound.length
  let history := progress.errorCountHistory ++ [errorCount]
  let ur := cycle.errorsFound.foldl
    (fun (p : Nat × Nat) e =>
      if getErrorHash e ∈ seen then (p.1, p.2 + 1) else (p.1 + 1, p.2))
    (progress.uniqueErrorsSeen, progress.repeatedErrors)
  { progress with
    totalCycles := progress.totalCycles + 1
    totalErrorsFound := progress.totalErrorsFound + errorCount
    errorCountHistory := history
    totalErrorsFixed := progress.totalErrorsFixed + cycle.fixesSuccessful
    uniqueErrorsSeen := ur.1
    repeatedErrors := ur.2
    trend := calculateTrend history }

/-- `VerificationLoop.detect_infinite_loop`.  The first test transliterates
`len(set(last_3_errors)) == 1 and last_3_errors[0]`: the three signature
strings are all equal and the first is non-empty (truthy). -/
def detectInfiniteLoop (cycles : List CycleResult) (progress : LoopProgress) : Bool :=
  if cycles.length < 3 then false
  else if ((lastN 3 cycles).map cycleErrorSignature).all
            (fun s => s == ((lastN 3 cycles).map cycleErrorSignature).headD "") &&
          !(((lastN 3 cycles).map cycleErrorSignature).headD "" == "") then true
  else if progress.trend = ProgressTrend.stalled then
    decide (3 ≤ progress.errorCountHistory.length) &&
      (recentWindow progress.errorCountHistory).all (fun h => decide (0 < h))
  else false

/-- The loop state owned by a `VerificationLoop` instance. -/
structure LoopState where
  status : LoopStatus := .notStarted
  progress : LoopProgress := {}
  cycles : List CycleResult := []
  errorHashCounts : List (String × Nat) := []
  seenErrorHashes : List String := []
deriving DecidableEq, Repr

/-- `VerificationLoop.should_continue` (called with the current cycle
already appended to `self.cycles` and the progress already updated, as
in `run_development_cycle`). -/
def shouldContinue (p : LoopParams) (st : LoopState) (cycle : CycleResult) : Bool × String :=
  if cycle.status = "success" then (false, "success")
  else if detectInfiniteLoop st.cycles st.progress then (false, "stuck")
  else if st.progress.trend = ProgressTrend.regressing ∧ 3 ≤ st.cycles.length then
    (false, "regressing")
  else if (cycle.errorsFound.all
        (fun e => decide (p.maxSameErrorAttempts ≤
          lookupCount st.errorHashCounts (getErrorHash e)))) = true ∧
      cycle.errorsFound ≠ [] then
    (false, "needs_help")
  else if cycle.errorsFound ≠ [] ∧ st.cycles.length < p.maxCycles then (true, "errors_remaining")
  else if cycle.errorsFound = [] then (false, "success")
  else (true, "continue")

/-- The message of the below-threshold `FixResult`
(`f"Confidence too low: ..."`; CPython's float formatting is not
reproduced digit-for-digit — no verified property reads this text). -/
def confidenceTooLowMessage (c t : ℚ) : String :=
  "Confidence too low: " ++ toString c ++ " < " ++ toString t

/-- `VerificationLoop._attempt_fix`.  `genFix` is the oracle for the
`auto_fixer.analyze_error` + `auto_fixer.generate_fix` pair (the
auto-fixer module is absent from `src/`); `applyF` for
`auto_fixer.apply_fix`.  The final boolean records whether `apply_fix`
was invoked. -/
def attemptFix (p : LoopParams) (genFix : DetectedError → Option GeneratedFix)
    (applyF : GeneratedFix → FixResult)
    (counts : List (String × Nat)) (seen : List String) (error : DetectedError) :
    Option FixAttempt × List (String × Nat) × List String × Bool :=
  let h := getErrorHash error
  if p.maxSameErrorAttempts ≤ lookupCount counts h then (none, counts, seen, false)
  else
    let counts' := setCount counts h (lookupCount counts h + 1)
    let seen' := addSeen seen h
    match genFix error with
    | none => (none, counts', seen', false)
    | some fix =>
      if fix.confidence < p.confidenceThreshold then
        (some { error := error, fix := fix,
                result := { success := false, strategy := none,
                            message := confidenceTooLowMessage fix.confidence p.confidenceThreshold } },
         counts', seen', false)
      else
        (some { error := error, fix := fix, result := applyF fix }, counts', seen', true)

/-- The per-cycle answers of the loop's collaborators. -/
structure CycleEnv where
  exec : ExecResultE
  test : TestResultE
  genFix : DetectedError → Option GeneratedFix
  applyFix : GeneratedFix → FixResult

/-- The `for error in ...: fix_result = self._attempt_fix(error); ...`
body shared by the two fixing loops of `_run_single_cycle`: it returns
the attempts appended, the successful/failed counters and the updated
hash state. -/
def runFixes (p : LoopParams) (env : CycleEnv) (errors : List DetectedError)
    (counts : List (String × Nat)) (seen : List String) :
    List FixAttempt × Nat × Nat × List (String × Nat) × List String :=
  errors.foldl
    (fun acc error =>
      let (attempts, nSucc, nFail, cs, sn) := acc
      match attemptFix p env.genFix env.applyFix cs sn error with
      | (some fr, cs', sn', _) =>
          if fr.result.success then (attempts ++ [fr], nSucc + 1, nFail, cs', sn')
          else (attempts ++ [fr], nSucc, nFail + 1, cs', sn')
      | (none, cs', sn', _) => (attempts, nSucc, nFail, cs', sn'))
    ([], 0, 0, counts, seen)

/-- `VerificationLoop._run_single_cycle`. -/
def runSingleCycle (p : LoopParams) (env : CycleEnv) (cycleNum : Nat)
    (counts : List (String × Nat)) (seen : List String) :
    CycleResult × List (String × Nat) × List String :=
  let execResult := env.exec
  let base : CycleResult := { cycleNumber := cycleNum, executionResult := some execResult }
  if execResult.status ≠ .success ∧ execResult.status ≠ .timeout then
    let errors := execResult.errors
    match (if p.autoFix ∧ errors ≠ [] then runFixes p env errors counts seen
           else ([], 0, 0, counts, seen)) with
    | (attempts, nSucc, nFail, counts', seen') =>
      ({ base with
         errorsFound := errors
         fixesAttempted := attempts
         fixesSuccessful := nSucc
         fixesFailed := nFail
         status := "errors_found" }, counts', seen')
  else if p.runTests ∧ execResult.status = .success then
    let t := env.test
    if t.success then
      ({ base with testResult := some t, status := "success" }, counts, seen)
    else
      let testErrors := t.errors
      match (if p.autoFix ∧ testErrors ≠ [] then runFixes p env testErrors counts seen
             else ([], 0, 0, counts, seen)) with
      | (attempts, nSucc, nFail, counts', seen') =>
        ({ base with
           testResult := some t
           errorsFound := testErrors
           fixesAttempted := attempts
           fixesSuccessful := nSucc
           fixesFailed := nFail
           status := "tests_failed" }, counts', seen')
  else
    ({ base with
       status := if execResult.status = .success then "success" else "execution_completed" },
     counts, seen)

/-- The status assignment of `run_development_cycle` on loop exit: only
the reasons `"success"`, `"stuck"` and `"needs_help"` set a status;
any other stop reason (e.g. `"regressing"`) leaves the status as it was. -/
def applyStopReason (st : LoopState) (reason : String) : LoopState :=
  if reason = "success" then { st with status := .success }
  else if reason = "stuck" then { st with status := .stuckInLoop }
  else if reason = "needs_help" then { st with status := .needsHumanHelp }
  else st

/-- One iteration body of `run_development_cycle`'s `for` loop before
the continuation decision: run `_run_single_cycle`, append the cycle to
`self.cycles`, store the updated hash state and update the progress.
Returns the new state together with the cycle just run. -/
def loopStep (p : LoopParams) (env : CycleEnv) (cycleNum : Nat) (st : LoopState) :
    LoopState × CycleResult :=
  ({ st with
     cycles := st.cycles ++
       [(runSingleCycle p env cycleNum st.errorHashCounts st.seenErrorHashes).1],
     errorHashCounts :=
       (runSingleCycle p env cycleNum st.errorHashCounts st.seenErrorHashes).2.1,
     seenErrorHashes :=
       (runSingleCycle p env cycleNum st.errorHashCounts st.seenErrorHashes).2.2,
     progress := updateProgress st.progress
       (runSingleCycle p env cycleNum st.errorHashCounts st.seenErrorHashes).2.2
       (runSingleCycle p env cycleNum st.errorHashCounts st.seenErrorHashes).1 },
   (runSingleCycle p env cycleNum st.errorHashCounts st.seenErrorHashes).1)

/-- The `for cycle_num in range(1, max_cycles + 1)` loop of
`run_development_cycle`: run a cycle, append it, update progress, then
stop or recurse on `should_continue`'s answer. -/
def runFrom (p : LoopParams) (env : Nat → CycleEnv) :
    Nat → Nat → LoopState → LoopState
  | 0, _, st => st
  | fuel + 1, cycleNum, st =>
    if (shouldContinue p (loopStep p (env cycleNum) cycleNum st).1
          (loopStep p (env cycleNum) cycleNum st).2).1 then
      runFrom p env fuel (cycleNum + 1) (loopStep p (env cycleNum) cycleNum st).1
    else
      applyStopReason (loopStep p (env cycleNum) cycleNum st).1
        (shouldContinue p (loopStep p (env cycleNum) cycleNum st).1
          (loopStep p (env cycleNum) cycleNum st).2).2

/-- `VerificationLoop.run_development_cycle` (status/state bookkeeping;
the produced `LoopReport` repackages these fields).  The cancellation
flag and the blanket exception handler are not modelled — no exception
can arise in the embedded fragment. -/
def runDevelopmentCycle (p : LoopParams) (env : Nat → CycleEnv) : LoopState :=
  let st := runFrom p env p.maxCycles 1 { status := .running }
  if p.maxCycles ≤ st.cycles.length ∧ st.status = .running then
    { st with status := .maxRetriesReached }
  else st

/-! ## Auxiliary definitions for the verified properties

Concrete loop environments (constant oracle answers) and the invariant
predicate used by the loop theorems. -/

/-- Repeated `_attempt_fix` calls on the same error, starting from fresh
counters, with the same oracle answers every time (the per-error state
threading of the loop). -/
def iterAttemptFix (p : LoopParams) (genFix : DetectedError → Option GeneratedFix)
    (applyF : GeneratedFix → FixResult) (error : DetectedError) :
    Nat → List (String × Nat) × List String
  | 0 => ([], [])
  | n + 1 =>
    ((attemptFix p genFix applyF (iterAttemptFix p genFix applyF error n).1
        (iterAttemptFix p genFix applyF error n).2 error).2.1,
     (attemptFix p genFix applyF (iterAttemptFix p genFix applyF error n).1
        (iterAttemptFix p genFix applyF error n).2 error).2.2.1)

def wLowError : DetectedError := { category := .runtime, message := "boom" }

def wLowFix : GeneratedFix := { error := wLowError, confidence := 0.4 }

def wLowGen : DetectedError → Option GeneratedFix := fun _ => some wLowFix

def wLowApply : GeneratedFix → FixResult :=
  fun _ => { success := true, strategy := none, message := "applied" }

def wLowParams : LoopParams := { maxSameErrorAttempts := 2 }

/-- A detected error used by concrete loop runs. -/
def wStuckError : DetectedError := { category := .runtime, message := "RuntimeError: boom" }

/-- A cycle environment whose execution always fails with the same
single error; auto-fixing will be off, so the fix oracles are never
consulted. -/
def wStuckEnv : Nat → CycleEnv := fun _ =>
  { exec := { status := .failed, errors := [wStuckError] },
    test := { success := true, errors := [] },
    genFix := fun _ => none,
    applyFix := fun _ => { success := false, strategy := none, message := "" } }

def wStuckParams : LoopParams := { maxCycles := 5, autoFix := false }

/-- The cycle such a run produces at ordinal `n`. -/
def wStuckCycle (n : Nat) : CycleResult :=
  { cycleNumber := n,
    executionResult := some { status := .failed, errors := [wStuckError] },
    errorsFound := [wStuckError], status := "errors_found" }

/-- Two distinct detected errors with the same retry-accounting hash:
same category, location and first 100 message characters, but digit
differences past character 100, so `_deduplicate_errors` keeps both
(their digit-normalised messages differ). -/
def wCexError1 : DetectedError :=
  { category := .typeError,
    message := "TypeError: " ++ String.mk (List.replicate 89 'a') ++ "b1" }

def wCexError2 : DetectedError :=
  { category := .typeError,
    message := "TypeError: " ++ String.mk (List.replicate 89 'a') ++ "bb2" }

/-- Cycle 1 carries both same-hash errors, later cycles only the first:
every cycle's hash *set* is the same singleton, but cycle 1's hash
*multiset* differs. -/
def wCexEnv : Nat → CycleEnv := fun n =>
  { exec := { status := .failed,
              errors := if n = 1 then [wCexError1, wCexError2] else [wCexError1] },
    test := { success := true, errors := [] },
    genFix := fun _ => none,
    applyFix := fun _ => { success := false, strategy := none, message := "" } }

def wCexParams : LoopParams := { maxCycles := 3, autoFix := false }

/-- The set of error hashes of the `j`-th cycle of the counterexample
run (distinct hashes in order of first appearance). -/
def cexCycleHashSet (j : Nat) : List String :=
  (((runDevelopmentCycle wCexParams wCexEnv).cycles.getD j
      { cycleNumber := 0 }).errorsFound.map getErrorHash).dedup

/-- An environment whose execution always times out. -/
def wTimeoutEnv : Nat → CycleEnv := fun _ =>
  { exec := { status := .timeout, errors := [] },
    test := { success := true, errors := [] },
    genFix := fun _ => none,
    applyFix := fun _ => { success := false, strategy := none, message := "" } }

/-- The single cycle such a run produces. -/
def wTimeoutCycle : CycleResult :=
  { cycleNumber := 1,
    executionResult := some { status := .timeout, errors := [] },
    status := "execution_completed" }

/-- No three consecutive cycles of `cycles` carry pairwise-equal
non-empty signatures: the invariant each continuing loop state
maintains. -/
def noStuckTriple (cycles : List CycleResult) : Prop :=
  ∀ L a b c post, cycles = L ++ [a, b, c] ++ post →
    ¬(cycleErrorSignature a = cycleErrorSignature b ∧
      cycleErrorSignature b = cycleErrorSignature c ∧
      cycleErrorSignature a ≠ "")

/-! ## Verified properties -/

/-! ### Properties of the stable sort -/

theorem mem_insertSorted (le : α → α → Bool) (x a : α) (l : List α) :
    a ∈ insertSorted le x l ↔ a = x ∨ a ∈ l := by
  induction l with
  | nil => simp [insertSorted]
  | cons y t ih =>
    rw [insertSorted]
    split
    · simp [List.mem_cons]
    · simp only [List.mem_cons, ih]
      tauto

theorem mem_insertionSort (le : α → α → Bool) (a : α) (l : List α) :
    a ∈ insertionSort le l ↔ a ∈ l := by
  induction l with
  | nil => simp [insertionSort]
  | cons x t ih =>
    rw [insertionSort, mem_insertSorted]
    simp [ih, List.mem_cons]

theorem length_insertSorted (le : α → α → Bool) (x : α) (l : List α) :
    (insertSorted le x l).length = l.length + 1 := by
  induction l with
  | nil => rfl
  | cons y t ih =>
    rw [insertSorted]
    split <;> simp [ih]

theorem length_insertionSort (le : α → α → Bool) (l : List α) :
    (insertionSort le l).length = l.length := by
  induction l with
  | nil => rfl
  | cons x t ih =>
    rw [insertionSort, length_insertSorted, ih, List.length_cons]

theorem pairwise_insertSorted (le : α → α → Bool)
    (htrans : ∀ a b c, le a b = true → le b c = true → le a c = true)
    (htotal : ∀ a b, (le a b || le b a) = true)
    (x : α) (l : List α)
    (hl : List.Pairwise (fun a b => le a b = true) l) :
    List.Pairwise (fun a b => le a b = true) (insertSorted le x l) := by
  induction l with
  | nil =>
    refine List.Pairwise.cons ?_ List.Pairwise.nil
    intro b hb
    cases hb
  | cons y t ih =>
    rw [insertSorted]
    obtain hy := List.pairwise_cons.mp hl
    split
    · rename_i hxy
      refine List.Pairwise.cons ?_ hl
      intro b hb
      rcases List.mem_cons.mp hb with rfl | hbt
      · exact hxy
      · exact htrans x y b hxy (hy.1 b hbt)
    · rename_i hxy
      refine List.Pairwise.cons ?_ (ih hy.2)
      intro b hb
      rcases (mem_insertSorted le x b t).mp hb with hbx | hbt
      · rw [hbx]
        have h := htotal x y
        rw [Bool.or_eq_true] at h
        rcases h with h | h
        · exact absurd h hxy
        · exact h
      · exact hy.1 b hbt

theorem pairwise_insertionSort (le : α → α → Bool)
    (htrans : ∀ a b c, le a b = true → le b c = true → le a c = true)
    (htotal : ∀ a b, (le a b || le b a) = true)
    (l : List α) :
    List.Pairwise (fun a b => le a b = true) (insertionSort le l) := by
  induction l with
  | nil => exact List.Pairwise.nil
  | cons x t ih =>
    rw [insertionSort]
    exact pairwise_insertSorted le htrans htotal x _ ih

/-- **C10**: on `"12 passed, 3 failed, 1 skipped"` the pytest parser
yields total 16, passed 12, failed 3, skipped 1 and `success = false`;
and for every input string the parsed total equals the sum of the parsed
passed, failed, skipped and error counts. -/
theorem c10_pytest_counts :
    ((parsePytestOutput "12 passed, 3 failed, 1 skipped").totalTests = 16 ∧
     (parsePytestOutput "12 passed, 3 failed, 1 skipped").passed = 12 ∧
     (parsePytestOutput "12 passed, 3 failed, 1 skipped").failed = 3 ∧
     (parsePytestOutput "12 passed, 3 failed, 1 skipped").skipped = 1 ∧
     (parsePytestOutput "12 passed, 3 failed, 1 skipped").success = false) ∧
    ∀ s : String,
      (parsePytestOutput s).totalTests =
        (parsePytestOutput s).passed + (parsePytestOutput s).failed +
          (parsePytestOutput s).skipped + (parsePytestOutput s).errors := by
  refine ⟨by decide, ?_⟩
  intro s
  unfold parsePytestOutput
  cases h : findCount "passed".data s.data with
  | none => rfl
  | some pr => obtain ⟨p, r1⟩ := pr; rfl

/-- **C8**: `_execute_command` is a total function of the process
outcome — non-zero exits, signal-killed processes (negative codes) and
timeouts come back as data, with status `success` exactly for exit
code 0, `failed` otherwise, `timeout` on a timeout; an infrastructure
spawn failure comes back as a `failed` result with exit code `-1` and
the exception text appended to the captured stderr, distinguishing it
from an ordinary project failure. -/
theorem c8_no_raise_status_as_data (timeoutSecs : Nat) (capture : CapturedOutput)
    (outcome : ProcOutcome) :
    (∀ code, outcome = .exited code →
      (executeCommand timeoutSecs capture outcome).1.status
          = (if code = 0 then ExecutionStatus.success else ExecutionStatus.failed) ∧
      (executeCommand timeoutSecs capture outcome).1.exitCode = code) ∧
    (∀ b, outcome = .timedOut b →
      (executeCommand timeoutSecs capture outcome).1.status = ExecutionStatus.timeout ∧
      (executeCommand timeoutSecs capture outcome).1.exitCode = -1) ∧
    (∀ msg, outcome = .spawnError msg →
      (executeCommand timeoutSecs capture outcome).1.status = ExecutionStatus.failed ∧
      (executeCommand timeoutSecs capture outcome).1.exitCode = -1 ∧
      (executeCommand timeoutSecs capture outcome).1.stderr
          = capture.stderr ++ "\nExecution error: " ++ msg) := by
  refine ⟨?_, ?_, ?_⟩ <;> rintro x rfl <;> simp [executeCommand]

/-- Witness for C8 at concrete outcomes. -/
theorem c8_witness :
    (executeCommand 300 {} (.exited 0)).1.status = ExecutionStatus.success ∧
    (executeCommand 300 {} (.exited 2)).1.exitCode = 2 ∧
    (executeCommand 300 {} (.timedOut false)).1.status = ExecutionStatus.timeout ∧
    (executeCommand 300 {} (.spawnError "boom")).1.status = ExecutionStatus.failed := by
  refine ⟨?_, ?_, ?_, ?_⟩
  · simpa using ((c8_no_raise_status_as_data 300 {} (.exited 0)).1 0 rfl).1
  · exact ((c8_no_raise_status_as_data 300 {} (.exited 2)).1 2 rfl).2
  · exact ((c8_no_raise_status_as_data 300 {} (.timedOut false)).2.1 false rfl).1
  · exact ((c8_no_raise_status_as_data 300 {} (.spawnError "boom")).2.2 "boom" rfl).1

/-- **C2** counterexample: on a timeout with a healthy `os.killpg`, the
termination trace of `_execute_command` is exactly one `SIGTERM` to the
process group — there is no grace-window wait and no forced kill of
survivors afterwards, contradicting the claimed
"graceful signal, grace window, then force-kill" sequence (the result is
nevertheless a timed-out one). -/
theorem c2_counterexample :
    (executeCommand 300 {} (.timedOut false)).1.status = ExecutionStatus.timeout ∧
    (executeCommand 300 {} (.timedOut false)).2 = [TermAction.sigtermGroup] ∧
    TermAction.graceWait ∉ (executeCommand 300 {} (.timedOut false)).2 ∧
    TermAction.sigkillGroup ∉ (executeCommand 300 {} (.timedOut false)).2 ∧
    TermAction.killDirectChild ∉ (executeCommand 300 {} (.timedOut false)).2 := by
  decide

/-- **C2** (amended): on timeout `_execute_command` returns a result with
status `timeout` and exit code `-1`, and its termination action is a
single `SIGTERM` to the process group — falling back to killing the
direct child only when `os.killpg` itself raises; it neither waits a
grace window nor force-kills surviving group members. -/
theorem c2_amended_timeout_termination (timeoutSecs : Nat) (capture : CapturedOutput)
    (b : Bool) (outcome : ProcOutcome) (h : outcome = .timedOut b) :
    (executeCommand timeoutSecs capture outcome).1.status = ExecutionStatus.timeout ∧
    (executeCommand timeoutSecs capture outcome).1.exitCode = -1 ∧
    (executeCommand timeoutSecs capture outcome).2
        = (if b then [TermAction.killDirectChild] else [TermAction.sigtermGroup]) ∧
    TermAction.graceWait ∉ (executeCommand timeoutSecs capture outcome).2 ∧
    TermAction.sigkillGroup ∉ (executeCommand timeoutSecs capture outcome).2 := by
  subst h
  cases b <;> simp [executeCommand]

/-- Witness for the amended C2 at a concrete outcome. -/
theorem c2_witness :
    (executeCommand 60 {} (.timedOut true)).1.status = ExecutionStatus.timeout ∧
    (executeCommand 60 {} (.timedOut true)).2 = [TermAction.killDirectChild] := by
  have h := c2_amended_timeout_termination 60 {} true (.timedOut true) rfl
  exact ⟨h.1, by simpa using h.2.2.1⟩

/-- **C6**: `get_strategies_for_error` returns a list sorted in
non-increasing confidence order in which every strategy covers the
error's category and meets the confidence floor. -/
theorem c6_strategies_sorted_filtered (error : DetectedError) (minConfidence : ℚ) :
    List.Pairwise (fun a b : FixStrategy => b.confidence ≤ a.confidence)
      (getStrategiesForError error minConfidence) ∧
    ∀ s ∈ getStrategiesForError error minConfidence,
      error.category ∈ s.errorCategories ∧ minConfidence ≤ s.confidence := by
  constructor
  · have h := pairwise_insertionSort
      (fun a b : FixStrategy => decide (b.confidence ≤ a.confidence))
      (fun a b c hab hbc => by
        simp only [decide_eq_true_eq] at *
        exact le_trans hbc hab)
      (fun a b => by
        simp only [Bool.or_eq_true, decide_eq_true_eq]
        exact le_total b.confidence a.confidence)
      (defaultStrategies.filter
        (fun s => decide (error.category ∈ s.errorCategories) &&
                  decide (minConfidence ≤ s.confidence)))
    exact h.imp (fun hab => of_decide_eq_true hab)
  · intro s hs
    have hmem := (mem_insertionSort _ _ _).mp hs
    obtain ⟨-, hp⟩ := List.mem_filter.mp hmem
    simp only [Bool.and_eq_true, decide_eq_true_eq] at hp
    exact hp

/-- Witness for C6: a concrete returned strategy covers the category and
the floor. -/
theorem c6_witness :
    ({ name := "npm_install", description := "Install missing npm packages",
       fixType := .dependency, errorCategories := [.dependency, .importError],
       confidence := 0.9, command := some "npm install",
       requiresRestart := true : FixStrategy }
        ∈ getStrategiesForError { category := .importError, message := "" } 0.75) ∧
    (ErrorCategory.importError ∈
        [ErrorCategory.dependency, ErrorCategory.importError] ∧ (0.75 : ℚ) ≤ 0.9) := by
  have hmem :
      ({ name := "npm_install", description := "Install missing npm packages",
         fixType := .dependency, errorCategories := [.dependency, .importError],
         confidence := 0.9, command := some "npm install",
         requiresRestart := true : FixStrategy }
        ∈ getStrategiesForError { category := .importError, message := "" } 0.75) := by
    apply (mem_insertionSort _ _ _).mpr
    apply List.mem_filter.mpr
    refine ⟨List.mem_cons_self _ _, ?_⟩
    rw [Bool.and_eq_true]
    exact ⟨decide_eq_true (by simp), decide_eq_true (by norm_num)⟩
  refine ⟨hmem, ?_⟩
  have h := (c6_strategies_sorted_filtered { category := .importError, message := "" } 0.75).2
    _ hmem
  simpa using h

/-- **C7**: the progress trend is `unknown` before two cycles exist, and
over the last-three-cycle window it is `improving` when the most recent
count is below the earliest, `regressing` when above, `stalled` when the
window's counts are all equal, and `stalled` in the remaining
(equal-endpoints) case. -/
theorem c7_trend (history : List Nat) :
    (history.length < 2 → calculateTrend history = ProgressTrend.unknown) ∧
    (2 ≤ history.length →
      ((recentWindow history).getLastD 0 < (recentWindow history).headD 0 →
          calculateTrend history = ProgressTrend.improving) ∧
      ((recentWindow history).headD 0 < (recentWindow history).getLastD 0 →
          calculateTrend history = ProgressTrend.regressing) ∧
      ((∀ x ∈ recentWindow history, x = (recentWindow history).headD 0) →
          calculateTrend history = ProgressTrend.stalled) ∧
      ((recentWindow history).getLastD 0 = (recentWindow history).headD 0 →
          calculateTrend history = ProgressTrend.stalled)) := by
  constructor
  · intro h
    simp [calculateTrend, h]
  · intro h2
    have hlen : ¬ history.length < 2 := by omega
    have hrlen : 2 ≤ (recentWindow history).length := by
      simp only [recentWindow, lastN, List.length_drop]
      omega
    have hrne : recentWindow history ≠ [] := by
      apply List.ne_nil_of_length_pos
      omega
    have hlastmem : (recentWindow history).getLastD 0 ∈ recentWindow history := by
      rw [List.getLastD_eq_getLast?, List.getLast?_eq_getLast _ hrne]
      exact List.getLast_mem hrne
    by_cases hall : ((recentWindow history).all (fun c => c == (recentWindow history).headD 0)) = true
    · have heq : (recentWindow history).getLastD 0 = (recentWindow history).headD 0 :=
        of_decide_eq_true (List.all_eq_true.mp hall _ hlastmem)
      refine ⟨?_, ?_, ?_, ?_⟩
      · intro hlt; omega
      · intro hlt; omega
      · intro _
        unfold calculateTrend
        rw [if_neg hlen, if_pos hall]
      · intro _
        unfold calculateTrend
        rw [if_neg hlen, if_pos hall]
    · refine ⟨?_, ?_, ?_, ?_⟩
      · intro hlt
        unfold calculateTrend
        rw [if_neg hlen, if_neg hall, if_pos hrlen, if_pos hlt]
      · intro hlt
        unfold calculateTrend
        rw [if_neg hlen, if_neg hall, if_pos hrlen,
            if_neg (by omega : ¬ (recentWindow history).getLastD 0 < (recentWindow history).headD 0),
            if_pos hlt]
      · intro hforall
        exact absurd (List.all_eq_true.mpr (fun x hx => decide_eq_true (hforall x hx))) hall
      · intro heq
        unfold calculateTrend
        rw [if_neg hlen, if_neg hall, if_pos hrlen,
            if_neg (by omega : ¬ (recentWindow history).getLastD 0 < (recentWindow history).headD 0),
            if_neg (by omega : ¬ (recentWindow history).headD 0 < (recentWindow history).getLastD 0)]

/-- Witness for C7: each trend case at a concrete history. -/
theorem c7_witness :
    calculateTrend [5, 3, 1] = ProgressTrend.improving ∧
    calculateTrend [7] = ProgressTrend.unknown ∧
    calculateTrend [2, 2, 2] = ProgressTrend.stalled ∧
    calculateTrend [1, 1, 3] = ProgressTrend.regressing ∧
    calculateTrend [2, 1, 2] = ProgressTrend.stalled :=
  ⟨((c7_trend [5, 3, 1]).2 (by decide)).1 (by decide),
   (c7_trend [7]).1 (by decide),
   ((c7_trend [2, 2, 2]).2 (by decide)).2.2.1 (by decide),
   ((c7_trend [1, 1, 3]).2 (by decide)).2.1 (by decide),
   ((c7_trend [2, 1, 2]).2 (by decide)).2.2.2 (by decide)⟩

/-! ### Deduplication (C5) -/

/-- On strings, `∉ (n :: seen)` splits as a boolean conjunction. -/
theorem decide_not_mem_cons (x n : String) (seen : List String) :
    decide (x ∉ n :: seen) = (decide (x ≠ n) && decide (x ∉ seen)) := by
  by_cases h1 : x = n <;> by_cases h2 : x ∈ seen <;> simp [h1, h2]

/-- The seen-set fold of `_deduplicate_errors` computes exactly
"first occurrence per normalised message" on the not-yet-seen entries. -/
theorem dedupGo_eq_keepFirst (l : List DetectedError) :
    ∀ seen, dedupGo seen l
      = keepFirstByNorm (l.filter (fun e => decide (normalizeMsg e.message ∉ seen))) := by
  induction l with
  | nil =>
    intro seen
    simp [dedupGo, keepFirstByNorm]
  | cons e rest ih =>
    intro seen
    by_cases h : normalizeMsg e.message ∈ seen
    · rw [dedupGo, if_pos h, List.filter_cons_of_neg (by simpa using h), ih]
    · rw [dedupGo, if_neg h, List.filter_cons_of_pos (by simpa using h), keepFirstByNorm,
          ih (normalizeMsg e.message :: seen), List.filter_filter]
      have hfl : List.filter (fun x => decide (normalizeMsg x.message ∉ normalizeMsg e.message :: seen)) rest
          = List.filter (fun x => decide (normalizeMsg x.message ≠ normalizeMsg e.message) &&
                decide (normalizeMsg x.message ∉ seen)) rest := by
        apply List.filter_congr
        intro x _
        exact decide_not_mem_cons _ _ _
      rw [hfl]

/-- The fold keeps only entries whose normalised message is outside
`seen`, pairwise distinct. -/
theorem dedupGo_pairwise (l : List DetectedError) : ∀ seen : List String,
    (∀ e ∈ dedupGo seen l, normalizeMsg e.message ∉ seen) ∧
    List.Pairwise (fun a b => normalizeMsg a.message ≠ normalizeMsg b.message)
      (dedupGo seen l) := by
  induction l with
  | nil =>
    intro seen
    refine ⟨?_, List.Pairwise.nil⟩
    intro e he
    simp [dedupGo] at he
  | cons e rest ih =>
    intro seen
    by_cases h : normalizeMsg e.message ∈ seen
    · rw [dedupGo, if_pos h]
      exact ih seen
    · rw [dedupGo, if_neg h]
      obtain ⟨hmem, hpw⟩ := ih (normalizeMsg e.message :: seen)
      refine ⟨?_, ?_⟩
      · intro x hx
        rcases List.mem_cons.mp hx with rfl | hx'
        · exact h
        · exact fun hxs => hmem x hx' (List.mem_cons_of_mem _ hxs)
      · refine List.Pairwise.cons ?_ hpw
        intro b hb heq
        apply hmem b hb
        rw [← heq]
        exact List.mem_cons_self _ _

/-- **C5**: `parse_error_logs` keeps exactly the first occurrence per
digit-normalised message, so its output never contains two entries whose
normalised messages coincide.  The statement is universally quantified
over the detector's three regex helpers, so it holds in particular for
the source's pattern tables. -/
theorem c5_parse_deduplicates (categorize : String → ErrorCategory)
    (extractLoc : String → List String → Nat → Option String × Option Nat)
    (extractST : List String → Nat → Option String)
    (maxContextLines : Nat) (output stderr : String) :
    parseErrorLogs categorize extractLoc extractST maxContextLines output stderr
      = keepFirstByNorm
          (rawErrors categorize extractLoc extractST maxContextLines output stderr) ∧
    List.Pairwise (fun a b => normalizeMsg a.message ≠ normalizeMsg b.message)
      (parseErrorLogs categorize extractLoc extractST maxContextLines output stderr) := by
  constructor
  · rw [parseErrorLogs, deduplicateErrors, dedupGo_eq_keepFirst]
    congr 1
    apply List.filter_eq_self.mpr
    intro e _
    simp
  · exact (dedupGo_pairwise _ []).2

/-! ### Project-type detection (C9) -/

/-- **C9**: `detect_project_type` returns the first handler, in the
priority-descending handler order, whose `detect` accepts the directory;
the generic handler accepts every directory, so a handler is always
found; and a missing or malformed `package.json` makes the
manifest-reading handlers not match (rather than fail). -/
theorem c9_first_match_detection (d : ProjectDir) :
    detectProjectType d = (projectHandlers.find? (fun h => h.detect d)).getD genericHandler ∧
    (projectHandlers.find? (fun h => h.detect d)).isSome = true ∧
    List.Pairwise (fun a b : Handler => b.priority ≤ a.priority) projectHandlers ∧
    genericHandler.detect d = true ∧
    (d.readJsonPkg "package.json" = none →
      reactHandler.detect d = false ∧ nextjsHandler.detect d = false) ∧
    (d.fileExists "package.json" = false →
      reactHandler.detect d = false ∧ nextjsHandler.detect d = false ∧
        nodejsHandler.detect d = false) := by
  refine ⟨?_, ?_, ?_, rfl, ?_, ?_⟩
  · rw [detectProjectType]
    cases h : projectHandlers.find? (fun h => h.detect d) <;> simp [h]
  · apply List.find?_isSome.mpr
    refine ⟨genericHandler, ?_, rfl⟩
    apply (mem_insertionSort _ _ _).mpr
    simp [genericHandler]
  · have h := pairwise_insertionSort
      (fun a b : Handler => decide (b.priority ≤ a.priority))
      (fun a b c hab hbc => by
        simp only [decide_eq_true_eq] at *
        omega)
      (fun a b => by
        simp only [Bool.or_eq_true, decide_eq_true_eq]
        omega)
      [nextjsHandler, reactHandler, djangoHandler, flaskHandler, iosHandler,
       nodejsHandler, pythonHandler, genericHandler]
    exact h.imp (fun hab => of_decide_eq_true hab)
  · intro h
    constructor
    · show reactDetect d = false
      rw [reactDetect]
      cases he : d.fileExists "package.json" <;> simp [he, h]
    · show nextjsDetect d = false
      rw [nextjsDetect]
      cases he : d.fileExists "package.json" <;> simp [he, h]
  · intro h
    refine ⟨?_, ?_, ?_⟩
    · show reactDetect d = false
      rw [reactDetect]
      simp [h]
    · show nextjsDetect d = false
      rw [nextjsDetect]
      simp [h]
    · show nodejsDetect d = false
      rw [nodejsDetect, h]

/-- Witness for C9: a directory whose `package.json` exists but is
malformed (`_read_json` answers `None`) is rejected by the React and
Next.js handlers and accepted by the Node.js one, and detection answers
with the find-first rule. -/
theorem c9_witness :
    (let d : ProjectDir :=
      { fileExists := fun f => f == "package.json",
        readJsonPkg := fun _ => none,
        readText := fun _ => none }
     d.readJsonPkg "package.json" = none ∧
     reactHandler.detect d = false ∧ nextjsHandler.detect d = false ∧
     nodejsHandler.detect d = true ∧
     (detectProjectType d
        = (projectHandlers.find? (fun h => h.detect d)).getD genericHandler)) := by
  have h := c9_first_match_detection
    { fileExists := fun f => f == "package.json",
      readJsonPkg := fun _ => none,
      readText := fun _ => none }
  exact ⟨rfl, (h.2.2.2.2.1 rfl).1, (h.2.2.2.2.1 rfl).2, rfl, h.1⟩

/-! ### Low-confidence fixes and the attempt budget (C3) -/

/-- `lookupCount` after `setCount` at the same key. -/
theorem lookupCount_setCount (m : List (String × Nat)) (k : String) (v : Nat) :
    lookupCount (setCount m k v) k = v := by
  induction m with
  | nil =>
    rw [setCount, lookupCount, List.find?_cons_of_pos _ (by simp)]
  | cons kv rest ih =>
    rw [setCount]
    by_cases h : (kv.1 == k) = true
    · rw [if_pos h, lookupCount, List.find?_cons_of_pos _ (by simp)]
    · rw [if_neg h, lookupCount, List.find?_cons_of_neg _ (by simpa using h)]
      exact ih

/-- **C3**: a generated fix whose confidence is below the threshold is
recorded as a failed attempt (the synthetic "confidence too low"
`FixResult`, not the `apply_fix` answer — the apply flag is `false`),
and the call still increments the error's attempt counter; iterating on
an error that only ever yields such fixes drives the counter to
`min n maxSameErrorAttempts`, so from the cap onwards `_attempt_fix`
answers `None` and the error is not retried. -/
theorem c3_low_confidence_attempt_budget (p : LoopParams)
    (genFix : DetectedError → Option GeneratedFix) (applyF : GeneratedFix → FixResult)
    (error : DetectedError) (fix : GeneratedFix)
    (hgen : genFix error = some fix)
    (hconf : fix.confidence < p.confidenceThreshold) :
    (∀ counts seen, lookupCount counts (getErrorHash error) < p.maxSameErrorAttempts →
      attemptFix p genFix applyF counts seen error
        = (some { error := error, fix := fix,
                  result := { success := false, strategy := none,
                              message := confidenceTooLowMessage fix.confidence
                                p.confidenceThreshold } },
           setCount counts (getErrorHash error) (lookupCount counts (getErrorHash error) + 1),
           addSeen seen (getErrorHash error), false)) ∧
    (∀ n, lookupCount (iterAttemptFix p genFix applyF error n).1 (getErrorHash error)
        = min n p.maxSameErrorAttempts) ∧
    (∀ n, p.maxSameErrorAttempts ≤ n →
      (attemptFix p genFix applyF (iterAttemptFix p genFix applyF error n).1
          (iterAttemptFix p genFix applyF error n).2 error).1 = none) := by
  have hstep : ∀ counts seen, lookupCount counts (getErrorHash error) < p.maxSameErrorAttempts →
      attemptFix p genFix applyF counts seen error
        = (some { error := error, fix := fix,
                  result := { success := false, strategy := none,
                              message := confidenceTooLowMessage fix.confidence
                                p.confidenceThreshold } },
           setCount counts (getErrorHash error) (lookupCount counts (getErrorHash error) + 1),
           addSeen seen (getErrorHash error), false) := by
    intro counts seen hlt
    simp only [attemptFix]
    rw [if_neg (Nat.not_le.mpr hlt), hgen]
    dsimp only
    rw [if_pos hconf]
  have hcount : ∀ n, lookupCount (iterAttemptFix p genFix applyF error n).1 (getErrorHash error)
      = min n p.maxSameErrorAttempts := by
    intro n
    induction n with
    | zero =>
      rw [iterAttemptFix]
      simp [lookupCount]
    | succ n ih =>
      by_cases hn : n < p.maxSameErrorAttempts
      · rw [iterAttemptFix, hstep _ _ (by rw [ih]; omega)]
        dsimp only
        rw [lookupCount_setCount, ih]
        omega
      · rw [iterAttemptFix, attemptFix]
        rw [if_pos (le_of_eq (by rw [ih]; omega))]
        dsimp only
        rw [ih]
        omega
  refine ⟨hstep, hcount, ?_⟩
  intro n hn
  rw [attemptFix, if_pos (le_of_eq (by rw [hcount n]; omega))]

/-- Witness for C3: a concrete 0.4-confidence fix against the default
0.7 threshold with a two-attempt budget. -/
theorem c3_witness :
    wLowGen wLowError = some wLowFix ∧
    wLowFix.confidence < wLowParams.confidenceThreshold ∧
    attemptFix wLowParams wLowGen wLowApply [] [] wLowError
      = (some { error := wLowError, fix := wLowFix,
                result := { success := false, strategy := none,
                            message := confidenceTooLowMessage wLowFix.confidence
                              wLowParams.confidenceThreshold } },
         setCount [] (getErrorHash wLowError) (lookupCount [] (getErrorHash wLowError) + 1),
         addSeen [] (getErrorHash wLowError), false) ∧
    lookupCount (iterAttemptFix wLowParams wLowGen wLowApply wLowError 2).1
        (getErrorHash wLowError) = 2 ∧
    (attemptFix wLowParams wLowGen wLowApply
        (iterAttemptFix wLowParams wLowGen wLowApply wLowError 2).1
        (iterAttemptFix wLowParams wLowGen wLowApply wLowError 2).2 wLowError).1 = none := by
  have hconf : wLowFix.confidence < wLowParams.confidenceThreshold := by
    show (0.4 : ℚ) < 0.7
    norm_num
  have h := c3_low_confidence_attempt_budget wLowParams wLowGen wLowApply wLowError wLowFix
    rfl hconf
  refine ⟨rfl, hconf, ?_, ?_, ?_⟩
  · exact h.1 [] [] (by decide)
  · rw [h.2.1 2]
    decide
  · exact h.2.2 2 (by decide)

/-! ### Helper lemmas for the loop theorems (C1, C4) -/

theorem lastN_append_three {α : Type} (L : List α) (a b c : α) :
    lastN 3 (L ++ [a, b, c]) = [a, b, c] := by
  rw [lastN]
  have h : (L ++ [a, b, c]).length - 3 = L.length := by simp
  rw [h, List.drop_left]

theorem mem_lastN_concat {α : Type} (n : Nat) (hn : 1 ≤ n) (l : List α) (x : α) :
    x ∈ lastN n (l ++ [x]) := by
  rw [lastN, List.drop_append_eq_append_drop]
  have h : (l ++ [x]).length - n - l.length = 0 := by
    simp only [List.length_append, List.length_cons, List.length_nil]
    omega
  rw [h]
  simp

theorem getLastD_lastN_concat {α : Type} (n : Nat) (l : List α) (x d : α) (hn : 1 ≤ n) :
    (lastN n (l ++ [x])).getLastD d = x := by
  rw [lastN, List.drop_append_eq_append_drop]
  have h : (l ++ [x]).length - n - l.length = 0 := by
    simp only [List.length_append, List.length_cons, List.length_nil]
    omega
  rw [h]
  simp [List.getLastD_concat]

theorem calculateTrend_concat_zero (old : List Nat) :
    calculateTrend (old ++ [0]) ≠ ProgressTrend.regressing := by
  have hlast : (recentWindow (old ++ [0])).getLastD 0 = 0 := by
    rw [recentWindow]
    exact getLastD_lastN_concat 3 old 0 0 (by norm_num)
  rw [calculateTrend]
  split
  · simp
  · split
    · simp
    · split
      · split
        · simp
        · split
          · rename_i hlt
            rw [hlast] at hlt
            exact absurd hlt (by omega)
          · simp
      · simp

theorem hexdigest_data_length (s : String) : (MD5.hexdigest s).data.length = 32 := by
  simp only [MD5.hexdigest]
  generalize (MD5.blocks (MD5.pad (MD5.strBytes s))).foldl MD5.processBlock
      (0x67452301, 0xefcdab89, 0x98badcfe, 0x10325476) = q
  obtain ⟨a, b, c, d⟩ := q
  simp [MD5.wordBytes, MD5.byteHex]

theorem getErrorHash_length (e : DetectedError) : (getErrorHash e).length = 16 := by
  simp only [getErrorHash]
  show ((MD5.hexdigest _).data.take 16).length = 16
  rw [List.length_take, hexdigest_data_length]
  norm_num

theorem joinSep_cons_length (sep x : String) (t : List String) :
    x.length ≤ (joinSep sep (x :: t)).length := by
  cases t with
  | nil => rw [joinSep]
  | cons y t =>
    rw [joinSep]
    simp only [String.length_append]
    omega

theorem cycleErrorSignature_empty (c : CycleResult) (h : c.errorsFound = []) :
    cycleErrorSignature c = "" := by
  rw [cycleErrorSignature, if_pos h]

theorem cycleErrorSignature_ne_empty (c : CycleResult) (h : c.errorsFound ≠ []) :
    cycleErrorSignature c ≠ "" := by
  rw [cycleErrorSignature, if_neg h]
  cases hs : sortedErrorHashes c with
  | nil =>
    exfalso
    apply h
    have hlen := congrArg List.length hs
    rw [sortedErrorHashes, length_insertionSort, List.length_map] at hlen
    exact List.length_eq_zero.mp (by simpa using hlen)
  | cons hd tl =>
    have hmem : hd ∈ c.errorsFound.map getErrorHash := by
      apply (mem_insertionSort _ _ _).mp
      show hd ∈ sortedErrorHashes c
      rw [hs]
      exact List.mem_cons_self _ _
    obtain ⟨e, -, he⟩ := List.mem_map.mp hmem
    intro hcon
    have hge := joinSep_cons_length "|" hd tl
    rw [hcon] at hge
    have h16 : hd.length = 16 := by rw [← he]; exact getErrorHash_length e
    rw [h16] at hge
    simp at hge

theorem sortedErrorHashes_sig (x y : CycleResult)
    (hxy : sortedErrorHashes x = sortedErrorHashes y)
    (hx : x.errorsFound ≠ []) :
    y.errorsFound ≠ [] ∧ cycleErrorSignature x = cycleErrorSignature y := by
  have hy : y.errorsFound ≠ [] := by
    intro hy0
    apply hx
    have hlen := congrArg List.length hxy
    rw [sortedErrorHashes, sortedErrorHashes, length_insertionSort, length_insertionSort,
        List.length_map, List.length_map, hy0] at hlen
    exact List.length_eq_zero.mp (by simpa using hlen)
  refine ⟨hy, ?_⟩
  rw [cycleErrorSignature, cycleErrorSignature, if_neg hx, if_neg hy, hxy]

theorem runSingleCycle_executionResult (p : LoopParams) (env : CycleEnv) (n : Nat)
    (counts : List (String × Nat)) (seen : List String) :
    (runSingleCycle p env n counts seen).1.executionResult = some env.exec := by
  by_cases h1 : env.exec.status ≠ ExecutionStatus.success ∧ env.exec.status ≠ ExecutionStatus.timeout
  · simp only [runSingleCycle]; rw [if_pos h1]
  · by_cases h2 : p.runTests ∧ env.exec.status = ExecutionStatus.success
    · by_cases h3 : env.test.success = true
      · simp only [runSingleCycle]; rw [if_neg h1, if_pos h2, if_pos h3]
      · simp only [runSingleCycle]; rw [if_neg h1, if_pos h2, if_neg h3]
    · simp only [runSingleCycle]; rw [if_neg h1, if_neg h2]

theorem runSingleCycle_success_errors (p : LoopParams) (env : CycleEnv) (n : Nat)
    (counts : List (String × Nat)) (seen : List String)
    (h : (runSingleCycle p env n counts seen).1.status = "success") :
    (runSingleCycle p env n counts seen).1.errorsFound = [] := by
  by_cases h1 : env.exec.status ≠ ExecutionStatus.success ∧ env.exec.status ≠ ExecutionStatus.timeout
  · exfalso
    have hs : (runSingleCycle p env n counts seen).1.status = "errors_found" := by
      simp only [runSingleCycle]; rw [if_pos h1]
    rw [hs] at h
    exact absurd h (by decide)
  · by_cases h2 : p.runTests ∧ env.exec.status = ExecutionStatus.success
    · by_cases h3 : env.test.success = true
      · simp only [runSingleCycle]; rw [if_neg h1, if_pos h2, if_pos h3]
      · exfalso
        have hs : (runSingleCycle p env n counts seen).1.status = "tests_failed" := by
          simp only [runSingleCycle]; rw [if_neg h1, if_pos h2, if_neg h3]
        rw [hs] at h
        exact absurd h (by decide)
    · simp only [runSingleCycle]; rw [if_neg h1, if_neg h2]

theorem runSingleCycle_timeout_cycle (p : LoopParams) (env : CycleEnv) (n : Nat)
    (counts : List (String × Nat)) (seen : List String)
    (ht : env.exec.status = ExecutionStatus.timeout) :
    (runSingleCycle p env n counts seen).1.errorsFound = [] ∧
    (runSingleCycle p env n counts seen).1.status = "execution_completed" := by
  have h1 : ¬(env.exec.status ≠ ExecutionStatus.success ∧
      env.exec.status ≠ ExecutionStatus.timeout) := by
    rw [ht]; simp
  have h2 : ¬(p.runTests ∧ env.exec.status = ExecutionStatus.success) := by
    rw [ht]; simp
  constructor
  · simp only [runSingleCycle]; rw [if_neg h1, if_neg h2]
  · simp only [runSingleCycle]; rw [if_neg h1, if_neg h2]
    show (if env.exec.status = ExecutionStatus.success then "success"
          else "execution_completed") = "execution_completed"
    rw [if_neg (by rw [ht]; simp)]

theorem detectInfiniteLoop_triple (L : List CycleResult) (a b c : CycleResult)
    (progress : LoopProgress)
    (h1 : cycleErrorSignature a = cycleErrorSignature b)
    (h2 : cycleErrorSignature b = cycleErrorSignature c)
    (hne : cycleErrorSignature a ≠ "") :
    detectInfiniteLoop (L ++ [a, b, c]) progress = true := by
  rw [detectInfiniteLoop]
  rw [if_neg (by simp : ¬ (L ++ [a, b, c]).length < 3)]
  rw [lastN_append_three]
  rw [if_pos ?hcond]
  case hcond =>
    rw [List.map_cons, List.map_cons, List.map_cons, List.map_nil, ← h1, ← h2, ← h1]
    simp [hne]

theorem detectInfiniteLoop_concat_empty (oldCycles : List CycleResult)
    (cycle : CycleResult) (progress : LoopProgress)
    (hsig : cycleErrorSignature cycle = "")
    (old : List Nat)
    (hhist : progress.errorCountHistory = old ++ [0]) :
    detectInfiniteLoop (oldCycles ++ [cycle]) progress = false := by
  rw [detectInfiniteLoop]
  split
  · rfl
  · rw [if_neg ?hc1]
    case hc1 =>
      intro hcond
      rw [Bool.and_eq_true] at hcond
      obtain ⟨hall, hhd⟩ := hcond
      have hmem : ("" : String) ∈ (lastN 3 (oldCycles ++ [cycle])).map cycleErrorSignature := by
        rw [← hsig]
        exact List.mem_map_of_mem _ (mem_lastN_concat 3 (by norm_num) _ _)
      have hh := List.all_eq_true.mp hall _ hmem
      rw [beq_iff_eq] at hh
      rw [← hh] at hhd
      simp at hhd
    split
    · have hmem0 : (0 : Nat) ∈ recentWindow progress.errorCountHistory := by
        rw [hhist, recentWindow]
        exact mem_lastN_concat 3 (by norm_num) _ _
      have hall0 : ((recentWindow progress.errorCountHistory).all
          (fun h => decide (0 < h))) = false := by
        apply List.all_eq_false.mpr
        exact ⟨0, hmem0, by simp⟩
      rw [hall0, Bool.and_false]
    · rfl

theorem shouldContinue_stuck (p : LoopParams) (st : LoopState) (cycle : CycleResult)
    (hstat : cycle.status ≠ "success")
    (hdet : detectInfiniteLoop st.cycles st.progress = true) :
    shouldContinue p st cycle = (false, "stuck") := by
  rw [shouldContinue, if_neg hstat, if_pos hdet]

theorem shouldContinue_no_errors (p : LoopParams) (st : LoopState) (cycle : CycleResult)
    (hstat : cycle.status ≠ "success")
    (herr : cycle.errorsFound = [])
    (hdet : detectInfiniteLoop st.cycles st.progress = false)
    (htrend : st.progress.trend ≠ ProgressTrend.regressing) :
    shouldContinue p st cycle = (false, "success") := by
  rw [shouldContinue, if_neg hstat, if_neg (by rw [hdet]; simp),
      if_neg (fun hc => htrend hc.1),
      if_neg (fun hc => hc.2 herr),
      if_neg (fun hc => hc.1 herr),
      if_pos herr]

theorem loopStep_cycles (p : LoopParams) (env : CycleEnv) (cycleNum : Nat) (st : LoopState) :
    (loopStep p env cycleNum st).1.cycles
      = st.cycles ++ [(loopStep p env cycleNum st).2] := rfl

theorem loopStep_status (p : LoopParams) (env : CycleEnv) (cycleNum : Nat) (st : LoopState) :
    (loopStep p env cycleNum st).1.status = st.status := rfl

theorem loopStep_history (p : LoopParams) (env : CycleEnv) (cycleNum : Nat) (st : LoopState) :
    (loopStep p env cycleNum st).1.progress.errorCountHistory
      = st.progress.errorCountHistory
          ++ [(loopStep p env cycleNum st).2.errorsFound.length] := rfl

theorem loopStep_trend (p : LoopParams) (env : CycleEnv) (cycleNum : Nat) (st : LoopState) :
    (loopStep p env cycleNum st).1.progress.trend
      = calculateTrend (st.progress.errorCountHistory
          ++ [(loopStep p env cycleNum st).2.errorsFound.length]) := rfl

theorem loopStep_cycle_eq (p : LoopParams) (env : CycleEnv) (cycleNum : Nat) (st : LoopState) :
    (loopStep p env cycleNum st).2
      = (runSingleCycle p env cycleNum st.errorHashCounts st.seenErrorHashes).1 := rfl

theorem applyStopReason_cycles (st : LoopState) (r : String) :
    (applyStopReason st r).cycles = st.cycles := by
  rw [applyStopReason]
  split
  · rfl
  · split
    · rfl
    · split <;> rfl

theorem applyStopReason_stuck (st : LoopState) :
    (applyStopReason st "stuck").status = LoopStatus.stuckInLoop := rfl

theorem applyStopReason_success (st : LoopState) :
    (applyStopReason st "success").status = LoopStatus.success := rfl

theorem concat_eq_concat {α : Type} {l₁ l₂ : List α} {x y : α}
    (h : l₁ ++ [x] = l₂ ++ [y]) : l₁ = l₂ ∧ x = y := by
  have h1 := congrArg List.dropLast h
  rw [List.dropLast_concat, List.dropLast_concat] at h1
  have h2 := congrArg List.getLast? h
  rw [List.getLast?_concat, List.getLast?_concat] at h2
  exact ⟨h1, by injection h2⟩

theorem append_mid_concat {α : Type} {L mid post M : List α} {y : α}
    (hp : post ≠ []) (h : L ++ mid ++ post = M ++ [y]) :
    M = L ++ mid ++ post.dropLast := by
  have h1 := congrArg List.dropLast h
  rw [List.dropLast_concat, List.append_assoc,
      List.dropLast_append_of_ne_nil _ (fun hc => hp (List.append_eq_nil.mp hc).2),
      List.dropLast_append_of_ne_nil _ hp, ← List.append_assoc] at h1
  exact h1.symm

/-- While the loop keeps running its cycle list never contains three
consecutive equal-signature non-empty cycles; when such a triple appears
it is the last three cycles and the loop stops there as stuck. -/
theorem runFrom_stuck_aux (p : LoopParams) (env : Nat → CycleEnv) :
    ∀ fuel cycleNum st, st.status = LoopStatus.running → noStuckTriple st.cycles →
      ∀ L a b c post,
        (runFrom p env fuel cycleNum st).cycles = L ++ [a, b, c] ++ post →
        cycleErrorSignature a = cycleErrorSignature b →
        cycleErrorSignature b = cycleErrorSignature c →
        cycleErrorSignature a ≠ "" →
        post = [] ∧ (runFrom p env fuel cycleNum st).status = LoopStatus.stuckInLoop := by
  intro fuel
  induction fuel with
  | zero =>
    intro cycleNum st hrun hinv L a b c post hcyc h1 h2 hne
    rw [runFrom] at hcyc
    exact absurd ⟨h1, h2, hne⟩ (hinv L a b c post hcyc)
  | succ fuel ih =>
    intro cycleNum st hrun hinv L a b c post hcyc h1 h2 hne
    rw [runFrom] at hcyc ⊢
    by_cases hc : (shouldContinue p (loopStep p (env cycleNum) cycleNum st).1
        (loopStep p (env cycleNum) cycleNum st).2).1 = true
    · rw [if_pos hc] at hcyc ⊢
      have hdet : detectInfiniteLoop (loopStep p (env cycleNum) cycleNum st).1.cycles
          (loopStep p (env cycleNum) cycleNum st).1.progress = false := by
        by_contra hdt
        rw [Bool.not_eq_false] at hdt
        by_cases hst : (loopStep p (env cycleNum) cycleNum st).2.status = "success"
        · rw [shouldContinue, if_pos hst] at hc
          simp at hc
        · rw [shouldContinue_stuck p _ _ hst hdt] at hc
          simp at hc
      have hinv' : noStuckTriple (loopStep p (env cycleNum) cycleNum st).1.cycles := by
        intro L' a' b' c' post' heq hsigs
        obtain ⟨g1, g2, gne⟩ := hsigs
        by_cases hpost : post' = []
        · subst hpost
          have hcyceq : (loopStep p (env cycleNum) cycleNum st).1.cycles
              = L' ++ [a', b', c'] := by simpa using heq
          have htr := detectInfiniteLoop_triple L' a' b' c'
            (loopStep p (env cycleNum) cycleNum st).1.progress g1 g2 gne
          rw [hcyceq, htr] at hdet
          simp at hdet
        · rw [loopStep_cycles] at heq
          have hM := append_mid_concat hpost heq.symm
          exact hinv L' a' b' c' post'.dropLast hM ⟨g1, g2, gne⟩
      exact ih (cycleNum + 1) (loopStep p (env cycleNum) cycleNum st).1 hrun hinv'
        L a b c post hcyc h1 h2 hne
    · rw [if_neg hc] at hcyc ⊢
      rw [applyStopReason_cycles] at hcyc
      by_cases hpost : post = []
      · subst hpost
        have hcyc' : st.cycles ++ [(loopStep p (env cycleNum) cycleNum st).2]
            = (L ++ [a, b]) ++ [c] := by
          rw [← loopStep_cycles, hcyc]
          simp
        obtain ⟨hSt, hC⟩ := concat_eq_concat hcyc'
        have hdet : detectInfiniteLoop (loopStep p (env cycleNum) cycleNum st).1.cycles
            (loopStep p (env cycleNum) cycleNum st).1.progress = true := by
          have hcycles : (loopStep p (env cycleNum) cycleNum st).1.cycles
              = L ++ [a, b, c] := by simpa using hcyc
          rw [hcycles]
          exact detectInfiniteLoop_triple L a b c _ h1 h2 hne
        have hstat : (loopStep p (env cycleNum) cycleNum st).2.status ≠ "success" := by
          intro hs
          have herr := runSingleCycle_success_errors p (env cycleNum) cycleNum
            st.errorHashCounts st.seenErrorHashes hs
          have hszero : cycleErrorSignature c = "" := by
            rw [← hC]
            exact cycleErrorSignature_empty _ herr
          rw [← h2, ← h1] at hszero
          exact hne hszero
        rw [shouldContinue_stuck p _ _ hstat hdet]
        exact ⟨rfl, applyStopReason_stuck _⟩
      · rw [loopStep_cycles] at hcyc
        have hM := append_mid_concat hpost hcyc.symm
        exact absurd ⟨h1, h2, hne⟩ (hinv L a b c post.dropLast hM)

/-- A cycle whose execution timed out carries no errors, is marked
`"execution_completed"`, and stops the loop right there with status
`success`. -/
theorem runFrom_timeout_aux (p : LoopParams) (env : Nat → CycleEnv) :
    ∀ fuel cycleNum st, st.status = LoopStatus.running →
      (∀ cyc ∈ st.cycles, cyc.executionResult.map ExecResultE.status
          ≠ some ExecutionStatus.timeout) →
      ∀ i cyc, (runFrom p env fuel cycleNum st).cycles[i]? = some cyc →
        cyc.executionResult.map ExecResultE.status = some ExecutionStatus.timeout →
        cyc.errorsFound = [] ∧ cyc.status = "execution_completed" ∧
        (runFrom p env fuel cycleNum st).status = LoopStatus.success ∧
        (runFrom p env fuel cycleNum st).cycles.length = i + 1 := by
  intro fuel
  induction fuel with
  | zero =>
    intro cycleNum st hrun hinv i cyc hi ht
    rw [runFrom] at hi
    exact absurd ht (hinv cyc (List.getElem?_mem hi))
  | succ fuel ih =>
    intro cycleNum st hrun hinv i cyc hi ht
    rw [runFrom] at hi ⊢
    by_cases htO : (env cycleNum).exec.status = ExecutionStatus.timeout
    · obtain ⟨herr, hstat⟩ := runSingleCycle_timeout_cycle p (env cycleNum) cycleNum
        st.errorHashCounts st.seenErrorHashes htO
      have herr' : (loopStep p (env cycleNum) cycleNum st).2.errorsFound = [] := herr
      have hstat' : (loopStep p (env cycleNum) cycleNum st).2.status
          = "execution_completed" := hstat
      have hsc : shouldContinue p (loopStep p (env cycleNum) cycleNum st).1
          (loopStep p (env cycleNum) cycleNum st).2 = (false, "success") := by
        apply shouldContinue_no_errors
        · rw [hstat']
          decide
        · exact herr'
        · show detectInfiniteLoop (st.cycles ++ [(loopStep p (env cycleNum) cycleNum st).2])
              (loopStep p (env cycleNum) cycleNum st).1.progress = false
          apply detectInfiniteLoop_concat_empty _ _ _
            (cycleErrorSignature_empty _ herr') st.progress.errorCountHistory
          rw [loopStep_history, herr']
          rfl
        · rw [loopStep_trend, herr']
          show calculateTrend (st.progress.errorCountHistory ++ [0])
              ≠ ProgressTrend.regressing
          exact calculateTrend_concat_zero _
      rw [hsc] at hi ⊢
      rw [if_neg (by decide : ¬((false, "success") : Bool × String).1 = true)] at hi ⊢
      rw [applyStopReason_cycles, loopStep_cycles] at hi
      by_cases hlt : i < st.cycles.length
      · exfalso
        rw [List.getElem?_append, if_pos hlt] at hi
        exact absurd ht (hinv cyc (List.getElem?_mem hi))
      · rw [List.getElem?_append, if_neg hlt] at hi
        have hi0 : i - st.cycles.length = 0 := by
          by_contra hne0
          rcases Nat.exists_eq_succ_of_ne_zero hne0 with ⟨k, hk⟩
          rw [hk] at hi
          simp at hi
        rw [hi0] at hi
        simp only [List.getElem?_cons_zero] at hi
        have hcyceq : cyc = (loopStep p (env cycleNum) cycleNum st).2 := by
          injection hi.symm
        subst hcyceq
        refine ⟨herr', hstat', ?_, ?_⟩
        · rw [applyStopReason_success]
        · rw [applyStopReason_cycles, loopStep_cycles]
          simp only [List.length_append, List.length_cons, List.length_nil]
          omega
    · have hinv' : ∀ cyc2 ∈ (loopStep p (env cycleNum) cycleNum st).1.cycles,
          cyc2.executionResult.map ExecResultE.status ≠ some ExecutionStatus.timeout := by
        intro cyc2 hmem
        rw [loopStep_cycles] at hmem
        rcases List.mem_append.mp hmem with hm | hm
        · exact hinv cyc2 hm
        · have : cyc2 = (loopStep p (env cycleNum) cycleNum st).2 := by simpa using hm
          subst this
          rw [loopStep_cycle_eq, runSingleCycle_executionResult]
          intro hcon
          have hcon' : some (env cycleNum).exec.status = some ExecutionStatus.timeout := hcon
          exact htO (by injection hcon')
      by_cases hc : (shouldContinue p (loopStep p (env cycleNum) cycleNum st).1
          (loopStep p (env cycleNum) cycleNum st).2).1 = true
      · rw [if_pos hc] at hi ⊢
        exact ih (cycleNum + 1) (loopStep p (env cycleNum) cycleNum st).1 hrun hinv' i cyc hi ht
      · rw [if_neg hc] at hi ⊢
        rw [applyStopReason_cycles] at hi
        exact absurd ht (hinv' cyc (List.getElem?_mem hi))

theorem runDevelopmentCycle_cycles_eq (p : LoopParams) (env : Nat → CycleEnv) :
    (runDevelopmentCycle p env).cycles
      = (runFrom p env p.maxCycles 1 { status := LoopStatus.running }).cycles := by
  simp only [runDevelopmentCycle]
  split <;> rfl

/-- **C4**: a cycle whose project execution timed out collects no
errors and is tagged `"execution_completed"`; the loop then stops right
there (that cycle is the last) with overall status `success`. -/
theorem c4_timeout_ends_success (p : LoopParams) (env : Nat → CycleEnv) (i : Nat)
    (cyc : CycleResult)
    (hi : (runDevelopmentCycle p env).cycles[i]? = some cyc)
    (ht : cyc.executionResult.map ExecResultE.status = some ExecutionStatus.timeout) :
    cyc.errorsFound = [] ∧ cyc.status = "execution_completed" ∧
    (runDevelopmentCycle p env).status = LoopStatus.success ∧
    (runDevelopmentCycle p env).cycles.length = i + 1 := by
  have hceq := runDevelopmentCycle_cycles_eq p env
  rw [hceq] at hi
  have key := runFrom_timeout_aux p env p.maxCycles 1 { status := LoopStatus.running } rfl
    (by intro c2 hc2; exact absurd hc2 (by simp)) i cyc hi ht
  obtain ⟨k1, k2, k3, k4⟩ := key
  refine ⟨k1, k2, ?_, by rw [hceq]; exact k4⟩
  simp only [runDevelopmentCycle]
  rw [if_neg ?hng]
  · exact k3
  case hng =>
    intro hcont
    rw [k3] at hcont
    exact absurd hcont.2 (by decide)

/-- Witness for C4: the always-timing-out environment ends after one
error-free `"execution_completed"` cycle with status `success`. -/
theorem c4_witness :
    (runDevelopmentCycle {} wTimeoutEnv).cycles[0]? = some wTimeoutCycle ∧
    wTimeoutCycle.executionResult.map ExecResultE.status = some ExecutionStatus.timeout ∧
    (wTimeoutCycle.errorsFound = [] ∧ wTimeoutCycle.status = "execution_completed" ∧
     (runDevelopmentCycle {} wTimeoutEnv).status = LoopStatus.success ∧
     (runDevelopmentCycle {} wTimeoutEnv).cycles.length = 0 + 1) := by
  refine ⟨by decide, by decide, ?_⟩
  exact c4_timeout_ends_success {} wTimeoutEnv 0 wTimeoutCycle (by decide) (by decide)

/-- **C1** (amended): when three consecutive cycles of a run carry
pairwise-equal *sorted error-hash lists* (hash multisets) and a
non-empty error list, the loop stops at the third of them with final
status `stuckInLoop`. -/
theorem c1_amended_stuck_on_equal_hash_lists (p : LoopParams) (env : Nat → CycleEnv)
    (i : Nat) (a b c : CycleResult)
    (ha : (runDevelopmentCycle p env).cycles[i]? = some a)
    (hb : (runDevelopmentCycle p env).cycles[i + 1]? = some b)
    (hc : (runDevelopmentCycle p env).cycles[i + 2]? = some c)
    (hab : sortedErrorHashes a = sortedErrorHashes b)
    (hbc : sortedErrorHashes b = sortedErrorHashes c)
    (hne : a.errorsFound ≠ []) :
    (runDevelopmentCycle p env).status = LoopStatus.stuckInLoop ∧
    (runDevelopmentCycle p env).cycles.length = i + 3 := by
  obtain ⟨hbne, h1⟩ := sortedErrorHashes_sig a b hab hne
  obtain ⟨hcne, h2⟩ := sortedErrorHashes_sig b c hbc hbne
  have hsne : cycleErrorSignature a ≠ "" := cycleErrorSignature_ne_empty a hne
  have hceq := runDevelopmentCycle_cycles_eq p env
  rw [hceq] at ha hb hc
  obtain ⟨hilen, hia⟩ := List.getElem?_eq_some_iff.mp ha
  obtain ⟨hblen, hib⟩ := List.getElem?_eq_some_iff.mp hb
  obtain ⟨hclen, hic⟩ := List.getElem?_eq_some_iff.mp hc
  have hdrop : (runFrom p env p.maxCycles 1 { status := LoopStatus.running }).cycles.drop i
      = a :: b :: c ::
        (runFrom p env p.maxCycles 1 { status := LoopStatus.running }).cycles.drop (i + 3) := by
    rw [List.drop_eq_getElem_cons hilen, hia]
    congr 1
    rw [List.drop_eq_getElem_cons hblen, hib]
    congr 1
    rw [List.drop_eq_getElem_cons hclen, hic]
  have hdecomp : (runFrom p env p.maxCycles 1 { status := LoopStatus.running }).cycles
      = (runFrom p env p.maxCycles 1 { status := LoopStatus.running }).cycles.take i
        ++ [a, b, c]
        ++ (runFrom p env p.maxCycles 1 { status := LoopStatus.running }).cycles.drop (i + 3) := by
    conv_lhs => rw [← List.take_append_drop i
      (runFrom p env p.maxCycles 1 { status := LoopStatus.running }).cycles]
    rw [hdrop]
    simp
  have key := runFrom_stuck_aux p env p.maxCycles 1 { status := LoopStatus.running } rfl
    (by
      intro L a' b' c' post hEq hsig
      exact absurd hEq (by simp))
    ((runFrom p env p.maxCycles 1 { status := LoopStatus.running }).cycles.take i) a b c
    ((runFrom p env p.maxCycles 1 { status := LoopStatus.running }).cycles.drop (i + 3))
    hdecomp h1 h2 hsne
  refine ⟨?_, ?_⟩
  · simp only [runDevelopmentCycle]
    rw [if_neg ?hng]
    · exact key.2
    case hng =>
      intro hcont
      rw [key.2] at hcont
      exact absurd hcont.2 (by decide)
  · rw [hceq, hdecomp, key.1]
    simp only [List.length_append, List.length_take, List.length_cons, List.length_nil]
    omega

set_option maxRecDepth 100000 in
/-- Witness for the amended C1: a run that repeats the same single error
for three cycles is stopped at cycle 3 with `stuckInLoop`. -/
theorem c1_witness :
    (runDevelopmentCycle wStuckParams wStuckEnv).cycles[0]? = some (wStuckCycle 1) ∧
    (runDevelopmentCycle wStuckParams wStuckEnv).cycles[1]? = some (wStuckCycle 2) ∧
    (runDevelopmentCycle wStuckParams wStuckEnv).cycles[2]? = some (wStuckCycle 3) ∧
    sortedErrorHashes (wStuckCycle 1) = sortedErrorHashes (wStuckCycle 2) ∧
    sortedErrorHashes (wStuckCycle 2) = sortedErrorHashes (wStuckCycle 3) ∧
    (wStuckCycle 1).errorsFound ≠ [] ∧
    ((runDevelopmentCycle wStuckParams wStuckEnv).status = LoopStatus.stuckInLoop ∧
     (runDevelopmentCycle wStuckParams wStuckEnv).cycles.length = 0 + 3) := by
  refine ⟨by decide, by decide, by decide, by decide, by decide, by decide, ?_⟩
  exact c1_amended_stuck_on_equal_hash_lists wStuckParams wStuckEnv 0
    (wStuckCycle 1) (wStuckCycle 2) (wStuckCycle 3)
    (by decide) (by decide) (by decide) (by decide) (by decide) (by decide)

set_option maxRecDepth 100000 in
/-- **C1** counterexample: a run whose three cycles have pairwise-equal
non-empty error-hash *sets* (cycle 1 carries two distinct errors with
the same hash, so its hash multiset differs) runs to its cycle cap and
ends `maxRetriesReached`, not `stuckInLoop` — the claim's "error-hash
sets" reading is refuted; the code compares sorted hash lists. -/
theorem c1_counterexample :
    cexCycleHashSet 0 = cexCycleHashSet 1 ∧
    cexCycleHashSet 1 = cexCycleHashSet 2 ∧
    cexCycleHashSet 0 ≠ [] ∧
    (runDevelopmentCycle wCexParams wCexEnv).cycles.length = 3 ∧
    (runDevelopmentCycle wCexParams wCexEnv).status ≠ LoopStatus.stuckInLoop := by
  decide

end AIOrch
